import Mathlib

/-!
Verification of the Red-Flag-Detection web application's core logic.

The TypeScript source is embedded shallowly: strings are lists of
characters, JS `JSON.parse` is a recursive-descent parser producing a
`Json` tree, the two module-level regular expressions of
`src/lib/ai/gemini-client.ts` are modelled by explicit scanning
functions, database tables are lists of row structures, and the
external Gemini call is an oracle parameter (its outcome per attempt).
-/

namespace RedFlag

/-- JS strings are modelled as lists of characters. -/
abbrev Str := List Char

/-- Model of `String.prototype.toLowerCase` (ASCII range). -/
def toLowerStr (s : Str) : Str := s.map Char.toLower

/-- Scan for an occurrence of `needle` at any position of the second list. -/
def strIncludesFrom (needle : Str) : Str → Bool
  | [] => needle.isEmpty
  | c :: rest => needle.isPrefixOf (c :: rest) || strIncludesFrom needle rest

/-- Model of `String.prototype.includes`: `needle` occurs inside `hay`. -/
def strIncludes (hay needle : Str) : Bool := strIncludesFrom needle hay

/-- The three members of the `ErrorType` enum in `src/lib/ai/types.ts`. -/
inductive ErrorType where
  | transient
  | permanent
  | parsing
deriving DecidableEq

/-- The `AnalysisError` class of `src/lib/ai/types.ts` (message and type;
the optional `originalError` payload carries no behaviour). -/
structure AnalysisError where
  message : Str
  type : ErrorType
deriving DecidableEq

/-- The keyword classification in the catch block of `analyzeWithGemini`
(`src/lib/ai/gemini-client.ts`): rate-limit, timeout and 5xx keywords give
TRANSIENT, then 4xx keywords give PERMANENT, anything else TRANSIENT. -/
def classifyGeminiError (msg : Str) : AnalysisError :=
  if strIncludes (toLowerStr msg) "rate limit".toList ||
      strIncludes (toLowerStr msg) "quota".toList ||
      strIncludes (toLowerStr msg) "429".toList then
    ⟨"Gemini API rate limit exceeded".toList, .transient⟩
  else if strIncludes (toLowerStr msg) "timeout".toList ||
      strIncludes (toLowerStr msg) "timed out".toList then
    ⟨"Gemini API request timed out".toList, .transient⟩
  else if strIncludes (toLowerStr msg) "500".toList ||
      strIncludes (toLowerStr msg) "503".toList then
    ⟨"Gemini API server error".toList, .transient⟩
  else if strIncludes (toLowerStr msg) "400".toList ||
      strIncludes (toLowerStr msg) "invalid".toList ||
      strIncludes (toLowerStr msg) "bad request".toList then
    ⟨"Invalid input to Gemini API".toList, .permanent⟩
  else
    ⟨"Gemini API error: ".toList ++ toLowerStr msg, .transient⟩

/-- The transient keywords listed by the spec, as a predicate on the
lowercased message. -/
def hasTransientKeyword (m : Str) : Bool :=
  strIncludes m "rate limit".toList || strIncludes m "quota".toList ||
    strIncludes m "429".toList || strIncludes m "timeout".toList ||
    strIncludes m "timed out".toList || strIncludes m "500".toList ||
    strIncludes m "503".toList

/-- The permanent keywords listed by the spec, as a predicate on the
lowercased message. -/
def hasPermanentKeyword (m : Str) : Bool :=
  strIncludes m "400".toList || strIncludes m "invalid".toList ||
    strIncludes m "bad request".toList

/-! ## JSON values and a model of `JSON.parse` -/

/-- JSON values as produced by `JSON.parse`.  Numbers are modelled as
rationals (every finite JS number is rational, and the literals the code
compares against — 0, 1, 0.5, 0.7 — are exact in both readings). -/
inductive Json where
  | null
  | bool (b : Bool)
  | num (q : Rat)
  | str (s : Str)
  | arr (elems : List Json)
  | obj (fields : List (Str × Json))

/-- JSON interelement whitespace: space, tab, line feed, carriage return. -/
def isJsonWs (c : Char) : Bool :=
  c == ' ' || c == '\t' || c == '\n' || c == '\r'

/-- Drop leading JSON whitespace. -/
def skipWs (cs : Str) : Str := cs.dropWhile isJsonWs

/-- Numeric value of a decimal-digit string (most significant first). -/
def digitsVal (ds : Str) : Nat :=
  ds.foldl (fun a c => a * 10 + (c.toNat - '0'.toNat)) 0

/-- Parse the (mandatory-digit) fraction part after a `.`; a string that
does not start with `.` has an empty fraction part. -/
def parseFracPart (cs : Str) : Option (Str × Str) :=
  match cs with
  | '.' :: r =>
    let ds := r.takeWhile Char.isDigit
    if ds.isEmpty then none else some (ds, r.dropWhile Char.isDigit)
  | r => some ([], r)

/-- Parse an optional exponent part `[eE][+-]?digits`. -/
def parseExpPart (cs : Str) : Option (Int × Str) :=
  match cs with
  | 'e' :: r => parseExpTail r
  | 'E' :: r => parseExpTail r
  | r => some (0, r)
where
  parseExpTail (r : Str) : Option (Int × Str) :=
    let (neg, r1) : Bool × Str :=
      match r with
      | '-' :: r' => (true, r')
      | '+' :: r' => (false, r')
      | r' => (false, r')
    let ds := r1.takeWhile Char.isDigit
    if ds.isEmpty then none
    else some (if neg then -(digitsVal ds : Int) else (digitsVal ds : Int),
              r1.dropWhile Char.isDigit)

/-- Rational addition, written out through `mkRat` (the kernel can
evaluate this form on concrete inputs). -/
def qAdd (a b : Rat) : Rat := mkRat (a.num * b.den + b.num * a.den) (a.den * b.den)

/-- Rational multiplication through `mkRat`. -/
def qMul (a b : Rat) : Rat := mkRat (a.num * b.num) (a.den * b.den)

/-- Rational negation through `mkRat`. -/
def qNeg (a : Rat) : Rat := mkRat (-a.num) a.den

/-- Division of a rational by `10^k`, through `mkRat`. -/
def qDivPow10 (a : Rat) (k : Nat) : Rat := mkRat a.num (a.den * 10 ^ k)

/-- Assemble the rational `±(ip.fp) · 10^e` from integer digits,
fraction digits and exponent. -/
def ratOfParts (neg : Bool) (ip : Nat) (fp : Str) (e : Int) : Rat :=
  let base : Rat :=
    qAdd (mkRat (ip : Int) 1) (mkRat (digitsVal fp : Int) (10 ^ fp.length))
  let q :=
    match e with
    | Int.ofNat k => qMul base (mkRat ((10 ^ k : Nat) : Int) 1)
    | Int.negSucc k => qDivPow10 base (k + 1)
  if neg then qNeg q else q

/-- Parse a JSON number token (`-? (0 | [1-9][0-9]*) frac? exp?`).
A leading `0` followed by more digits simply ends the token after the
`0`, which makes the following character trailing garbage for every
caller, exactly as in `JSON.parse`. -/
def parseJsonNumber (cs : Str) : Option (Rat × Str) :=
  let (neg, cs1) : Bool × Str :=
    match cs with
    | '-' :: r => (true, r)
    | r => (false, r)
  match cs1 with
  | '0' :: r =>
    match parseFracPart r with
    | none => none
    | some (fp, r2) =>
      match parseExpPart r2 with
      | none => none
      | some (e, r3) => some (ratOfParts neg 0 fp e, r3)
  | c :: r =>
    if c.isDigit then
      let ds := c :: r.takeWhile Char.isDigit
      let r1 := r.dropWhile Char.isDigit
      match parseFracPart r1 with
      | none => none
      | some (fp, r2) =>
        match parseExpPart r2 with
        | none => none
        | some (e, r3) => some (ratOfParts neg (digitsVal ds) fp e, r3)
    else none
  | [] => none

/-- Is `c` a hexadecimal digit? -/
def isHexDig (c : Char) : Bool :=
  c.isDigit || ('a' ≤ c && c ≤ 'f') || ('A' ≤ c && c ≤ 'F')

/-- Value of a hexadecimal digit. -/
def hexDigitVal (c : Char) : Nat :=
  if c.isDigit then c.toNat - '0'.toNat
  else if 'a' ≤ c ∧ c ≤ 'f' then c.toNat - 'a'.toNat + 10
  else c.toNat - 'A'.toNat + 10

/-- Parse the body of a JSON string literal (after the opening quote),
returning the decoded characters and the remainder after the closing
quote. -/
def parseJsonString : Str → Option (Str × Str)
  | [] => none
  | '"' :: r => some ([], r)
  | '\\' :: e :: r =>
    match e with
    | '"' => (parseJsonString r).map (fun p => ('"' :: p.1, p.2))
    | '\\' => (parseJsonString r).map (fun p => ('\\' :: p.1, p.2))
    | '/' => (parseJsonString r).map (fun p => ('/' :: p.1, p.2))
    | 'b' => (parseJsonString r).map (fun p => ('\x08' :: p.1, p.2))
    | 'f' => (parseJsonString r).map (fun p => ('\x0C' :: p.1, p.2))
    | 'n' => (parseJsonString r).map (fun p => ('\n' :: p.1, p.2))
    | 'r' => (parseJsonString r).map (fun p => ('\r' :: p.1, p.2))
    | 't' => (parseJsonString r).map (fun p => ('\t' :: p.1, p.2))
    | 'u' =>
      match r with
      | a :: b :: c :: d :: r' =>
        if isHexDig a && isHexDig b && isHexDig c && isHexDig d then
          let n := ((hexDigitVal a * 16 + hexDigitVal b) * 16 +
            hexDigitVal c) * 16 + hexDigitVal d
          (parseJsonString r').map (fun p => (Char.ofNat n :: p.1, p.2))
        else none
      | _ => none
    | _ => none
  | c :: r =>
    if c.toNat < 0x20 then none
    else (parseJsonString r).map (fun p => (c :: p.1, p.2))

mutual

/-- Parse one JSON value (fuel-bounded recursive descent). -/
def parseJsonValue : Nat → Str → Option (Json × Str)
  | 0, _ => none
  | fuel + 1, cs =>
    match skipWs cs with
    | 'n' :: 'u' :: 'l' :: 'l' :: r => some (.null, r)
    | 't' :: 'r' :: 'u' :: 'e' :: r => some (.bool true, r)
    | 'f' :: 'a' :: 'l' :: 's' :: 'e' :: r => some (.bool false, r)
    | '"' :: r => (parseJsonString r).map (fun p => (.str p.1, p.2))
    | '[' :: r =>
      (match skipWs r with
      | ']' :: r' => some (.arr [], r')
      | r' => (parseJsonElems fuel r').map (fun p => (.arr p.1, p.2)))
    | '{' :: r =>
      (match skipWs r with
      | '}' :: r' => some (.obj [], r')
      | r' => (parseJsonMembers fuel r').map (fun p => (.obj p.1, p.2)))
    | cs' => (parseJsonNumber cs').map (fun p => (.num p.1, p.2))

/-- Parse a comma-separated nonempty list of array elements up to `]`. -/
def parseJsonElems : Nat → Str → Option (List Json × Str)
  | 0, _ => none
  | fuel + 1, cs =>
    match parseJsonValue fuel cs with
    | none => none
    | some (v, r) =>
      match skipWs r with
      | ',' :: r' =>
        (parseJsonElems fuel r').map (fun p => (v :: p.1, p.2))
      | ']' :: r' => some ([v], r')
      | _ => none

/-- Parse a comma-separated nonempty list of object members up to `}`. -/
def parseJsonMembers : Nat → Str → Option (List (Str × Json) × Str)
  | 0, _ => none
  | fuel + 1, cs =>
    match skipWs cs with
    | '"' :: r =>
      match parseJsonString r with
      | none => none
      | some (k, r1) =>
        match skipWs r1 with
        | ':' :: r2 =>
          match parseJsonValue fuel r2 with
          | none => none
          | some (v, r3) =>
            match skipWs r3 with
            | ',' :: r4 =>
              (parseJsonMembers fuel r4).map (fun p => ((k, v) :: p.1, p.2))
            | '}' :: r4 => some ([(k, v)], r4)
            | _ => none
        | _ => none
    | _ => none

end

/-- Model of `JSON.parse`: parse a complete JSON document; `none` models
a thrown `SyntaxError`.  The fuel is an upper bound on the recursion
depth, which consumes at least one character every two nested calls. -/
def jsonParse (s : Str) : Option Json :=
  match parseJsonValue (2 * s.length + 4) s with
  | some (j, r) => if (skipWs r).isEmpty then some j else none
  | none => none

/-- Property lookup on a parsed JSON object: JS objects built by
`JSON.parse` keep the last of duplicate keys; lookup on a non-object
yields `undefined` (modelled as `none`). -/
def jsonGet (j : Json) (k : Str) : Option Json :=
  match j with
  | .obj fields => ((fields.reverse).find? (fun p => p.1 == k)).map (·.2)
  | _ => none

/-! ## The two module-level regular expressions of `gemini-client.ts` -/

/-- JS `\s`: whitespace character class of JS regular expressions. -/
def isJsSpace (c : Char) : Bool :=
  c == ' ' || c == '\t' || c == '\n' || c == '\r' || c == '\x0b' ||
    c == '\x0c' || c == '\u00A0' || c == '\u1680' ||
    ('\u2000' ≤ c && c ≤ '\u200A') || c == '\u2028' || c == '\u2029' ||
    c == '\u202F' || c == '\u205F' || c == '\u3000' || c == '\uFEFF'

/-- Index of the first occurrence of `pat`, counting from `i`. -/
def findSubFrom (pat : Str) : Str → Nat → Option Nat
  | [], i => if pat.isEmpty then some i else none
  | c :: r, i =>
    if pat.isPrefixOf (c :: r) then some i else findSubFrom pat r (i + 1)

/-- Index of the first occurrence of `pat` in `cs`. -/
def findSub (pat cs : Str) : Option Nat := findSubFrom pat cs 0

/-- The literal ` ```json ` opening of `ANALYSIS_JSON_BLOCK_PATTERN`. -/
def openFence : Str := "```json".toList

/-- The literal ` ``` ` closing fence. -/
def closeFence : Str := "```".toList

/-- Leftmost position where `/```json\s*\n?([\s\S]*?)\n?```/` can start:
the first occurrence of ` ```json ` that is followed somewhere by ` ``` `.
Returns the suffix after the opening literal. -/
def fencedScan : Str → Option Str
  | [] => none
  | c :: r =>
    if openFence.isPrefixOf (c :: r) &&
        strIncludesFrom closeFence ((c :: r).drop 7) then
      some ((c :: r).drop 7)
    else fencedScan r

/-- The capture group of `ANALYSIS_JSON_BLOCK_PATTERN` =
`/```json\s*\n?([\s\S]*?)\n?```/`: after the opening literal, the greedy
`\s*` removes the maximal whitespace run (after which `\n?` is forced
empty), the lazy body then ends at the first closing fence, giving back
one directly preceding newline to the trailing `\n?`. -/
def fencedCapture (content : Str) : Option Str :=
  match fencedScan content with
  | none => none
  | some rest =>
    let r1 := rest.dropWhile isJsSpace
    match findSub closeFence r1 with
    | none => none
    | some c =>
      let k := if 0 < c && r1.getD (c - 1) ' ' == '\n' then c - 1 else c
      some (r1.take k)

/-- Does `r` contain the quoted key followed later by a closing brace?
(The continuation `[\s\S]*"key"[\s\S]*\}` of the object pattern.) -/
def hasKeyThenClose (quoted r : Str) : Bool :=
  match findSub quoted r with
  | some q => (r.drop (q + quoted.length)).contains '}'
  | none => false

/-- Index of the first `{` from which the object pattern can match. -/
def braceStart (quoted : Str) : Str → Nat → Option Nat
  | [], _ => none
  | c :: r, i =>
    if c == '{' && hasKeyThenClose quoted r then some i
    else braceStart quoted r (i + 1)

/-- Index of the last `}` in `cs`. -/
def lastBraceIdx (cs : Str) : Option Nat :=
  match cs.reverse.findIdx? (· == '}') with
  | some k => some (cs.length - 1 - k)
  | none => none

/-- The full match of `/\{[\s\S]*"key"[\s\S]*\}/` (both quantifiers
greedy): from the first `{` that is followed by `"key"` and then `}`, up
to the last `}` of the string. -/
def objectMatch (key content : Str) : Option Str :=
  let quoted := '"' :: (key ++ ['"'])
  match braceStart quoted content 0 with
  | none => none
  | some i =>
    match lastBraceIdx content with
    | none => none
    | some j => some ((content.drop i).take (j + 1 - i))

/-! ## `parseAnalysisJSON`, `validateAnalysisResult`, `analyzeWithGemini` -/

/-- Message of the `AnalysisError` thrown by `parseAnalysisJSON`. -/
def parsingFailureMsg : Str :=
  "Failed to parse analysis JSON from Gemini response".toList

/-- The key required by `ANALYSIS_JSON_OBJECT_PATTERN`. -/
def redFlagScoreKey : Str := "redFlagScore".toList

/-- `parseAnalysisJSON` of `gemini-client.ts`: try the fenced-block
capture, then the object-pattern match, then the whole content; the
single surrounding try/catch turns any `JSON.parse` failure into an
`AnalysisError` of type PARSING. -/
def parseAnalysisJSON (content : Str) : Except AnalysisError Json :=
  match fencedCapture content with
  | some body =>
    match jsonParse body with
    | some j => .ok j
    | none => .error ⟨parsingFailureMsg, .parsing⟩
  | none =>
    match objectMatch redFlagScoreKey content with
    | some m =>
      match jsonParse m with
      | some j => .ok j
      | none => .error ⟨parsingFailureMsg, .parsing⟩
    | none =>
      match jsonParse content with
      | some j => .ok j
      | none => .error ⟨parsingFailureMsg, .parsing⟩

/-- `typeof x === "number"` for a property-lookup result. -/
def isNumField : Option Json → Bool
  | some (.num _) => true
  | _ => false

/-- `typeof x === "string"` for a property-lookup result. -/
def isStrField : Option Json → Bool
  | some (.str _) => true
  | _ => false

/-- `Array.isArray x` for a property-lookup result. -/
def isArrField : Option Json → Bool
  | some (.arr _) => true
  | _ => false

/-- A value thrown inside the `try` of `analyzeWithGemini`: either one
of the code's own `AnalysisError`s, or the runtime `TypeError` a
property access on `null` raises. -/
inductive JsThrow where
  | analysis (e : AnalysisError)
  | typeError (message : Str)
deriving DecidableEq

/-- Message of the `TypeError` thrown by `result.redFlagScore` when the
parsed result is `null`. -/
def nullAccessMsg : Str :=
  "Cannot read properties of null (reading 'redFlagScore')".toList

/-- Whether a parsed JSON value is `null` (property access on it
throws). -/
def jsonIsNull : Json → Bool
  | .null => true
  | _ => false

/-- `validateAnalysisResult` of `gemini-client.ts`: the property access
`result.redFlagScore` throws a `TypeError` when the parsed result is
`null`; otherwise the checks throw an `AnalysisError` of type PARSING
when `redFlagScore` is not a number, `verdict` not a string, or
`criticalFlags` not an array.  (Property access on a number, string,
boolean or array yields `undefined` and fails the first check.) -/
def validateAnalysisResult (result : Json) : Except JsThrow Unit :=
  if jsonIsNull result then .error (.typeError nullAccessMsg)
  else if !isNumField (jsonGet result "redFlagScore".toList) then
    .error (.analysis
      ⟨"Invalid analysis result: missing redFlagScore".toList, .parsing⟩)
  else if !isStrField (jsonGet result "verdict".toList) then
    .error (.analysis
      ⟨"Invalid analysis result: missing verdict".toList, .parsing⟩)
  else if !isArrField (jsonGet result "criticalFlags".toList) then
    .error (.analysis
      ⟨"Invalid analysis result: missing criticalFlags array".toList,
        .parsing⟩)
  else .ok ()

/-- Outcome of one `generateText` call against the external Gemini API:
either a response text, or a thrown error with a message. -/
inductive GeminiOutcome where
  | text (t : Str)
  | failure (msg : Str)

/-- `analyzeWithGemini`: on a response text, parse and validate; an
`AnalysisError` (always of type PARSING) is rethrown unchanged by the
`instanceof AnalysisError` branch of the catch, while the `TypeError`
from validating a `null` result fails that test and is classified by
its lowercased message, like a thrown call error. -/
def analyzeWithGemini (o : GeminiOutcome) : Except AnalysisError Json :=
  match o with
  | .text t =>
    match parseAnalysisJSON t with
    | .error e => .error e
    | .ok j =>
      match validateAnalysisResult j with
      | .error (.analysis e) => .error e
      | .error (.typeError msg) => .error (classifyGeminiError msg)
      | .ok _ => .ok j
  | .failure msg => .error (classifyGeminiError msg)

/-! ## `analyzeWithRetry` -/

/-- `AI_CONFIG.retry.maxAttempts` (`src/lib/ai/config.ts`). -/
def aiConfigRetryMaxAttempts : Nat := 3

/-- `AI_CONFIG.retry.delays` in milliseconds (`src/lib/ai/config.ts`). -/
def aiConfigRetryDelays : List Nat := [1000, 3000, 5000]

/-- The error thrown when every retry is exhausted. -/
def unavailableError : AnalysisError :=
  ⟨"AI temporarily unavailable. Please try again later.".toList, .transient⟩

/-- Trace of one `analyzeWithRetry` run: how many times
`analyzeWithGemini` was invoked, which delays were awaited (in order),
and the value returned or error thrown. -/
structure RetryTrace where
  calls : Nat
  waits : List Nat
  result : Except AnalysisError Json

/-- The retry loop of `analyzeWithRetry`, from attempt number `attempt`:
permanent and parsing errors are rethrown at once, a transient error on
a non-final attempt waits `delays[attempt]` and retries, and a failing
final attempt throws `unavailableError`.  The oracle `o` gives the
outcome of the external call on each attempt; the structural `fuel`
argument counts the loop iterations still allowed and equals
`maxRetries - attempt` at every call, so fuel 0 is the loop exit. -/
def retryLoop (o : Nat → GeminiOutcome) (delays : List Nat)
    (maxRetries : Nat) : Nat → Nat → RetryTrace
  | 0, _attempt => ⟨0, [], .error unavailableError⟩
  | fuel + 1, attempt =>
    match analyzeWithGemini (o attempt) with
    | .ok r => ⟨1, [], .ok r⟩
    | .error e =>
      if e.type = .permanent then ⟨1, [], .error e⟩
      else if e.type = .parsing then ⟨1, [], .error e⟩
      else if attempt < maxRetries - 1 then
        let t := retryLoop o delays maxRetries fuel (attempt + 1)
        ⟨t.calls + 1, delays.getD attempt 0 :: t.waits, t.result⟩
      else ⟨1, [], .error unavailableError⟩

/-- `analyzeWithRetry` with an explicit `maxRetries` argument. -/
def analyzeWithRetryN (o : Nat → GeminiOutcome) (maxRetries : Nat) :
    RetryTrace :=
  retryLoop o aiConfigRetryDelays maxRetries maxRetries 0

/-- `analyzeWithRetry` at its default `maxRetries = AI_CONFIG.retry.maxAttempts`. -/
def analyzeWithRetry (o : Nat → GeminiOutcome) : RetryTrace :=
  analyzeWithRetryN o aiConfigRetryMaxAttempts

/-! ## JS `Number(..)` coercion, used by category detection and the
month parser -/

/-- Digit-string value in radix `b` (letters via their hex value). -/
def radixVal (b : Nat) (ds : Str) : Nat :=
  ds.foldl (fun a c => a * b + hexDigitVal c) 0

/-- Is `c` an octal digit? -/
def isOctDig (c : Char) : Bool := '0' ≤ c && c ≤ '7'

/-- Is `c` a binary digit? -/
def isBinDig (c : Char) : Bool := c == '0' || c == '1'

/-- JS string-to-number grammar after the optional sign:
`digits [. digits?] [exp]` or `. digits [exp]`, consuming the whole
string; `none` models NaN. -/
def parseJsDecimalCore (cs : Str) : Option Rat :=
  let ip := cs.takeWhile Char.isDigit
  let r1 := cs.dropWhile Char.isDigit
  match r1 with
  | '.' :: r2 =>
    let fp := r2.takeWhile Char.isDigit
    let r3 := r2.dropWhile Char.isDigit
    if ip.isEmpty && fp.isEmpty then none
    else jsDecimalExp ip fp r3
  | _ => if ip.isEmpty then none else jsDecimalExp ip [] r1
where
  jsDecimalExp (ip fp r : Str) : Option Rat :=
    match r with
    | [] => some (ratOfParts false (digitsVal ip) fp 0)
    | e :: r1 =>
      if e == 'e' || e == 'E' then
        let (neg, r2) : Bool × Str :=
          match r1 with
          | '-' :: x => (true, x)
          | '+' :: x => (false, x)
          | x => (false, x)
        let ds := r2.takeWhile Char.isDigit
        let r3 := r2.dropWhile Char.isDigit
        if ds.isEmpty || !r3.isEmpty then none
        else some (ratOfParts false (digitsVal ip) fp
          (if neg then -(digitsVal ds : Int) else (digitsVal ds : Int)))
      else none

/-- Signed decimal branch of `Number(string)`. -/
def parseJsSignedDecimal : Str → Option Rat
  | '-' :: r => (parseJsDecimalCore r).map (fun q => qNeg q)
  | '+' :: r => parseJsDecimalCore r
  | r => parseJsDecimalCore r

/-- Model of JS `Number(string)`: trim, empty string is 0, `0x`/`0o`/`0b`
radix literals, otherwise the signed decimal grammar; `none` models NaN
(the non-finite `Infinity` spellings are also mapped to `none`, which the
code at hand never distinguishes from NaN).  This function handles the
already-trimmed string. -/
def numOfStringTrimmed : Str → Option Rat
  | [] => some 0
  | '0' :: x :: r =>
    if x == 'x' || x == 'X' then
      if !r.isEmpty && r.all isHexDig then some ((radixVal 16 r : Nat) : Rat)
      else none
    else if x == 'o' || x == 'O' then
      if !r.isEmpty && r.all isOctDig then some ((radixVal 8 r : Nat) : Rat)
      else none
    else if x == 'b' || x == 'B' then
      if !r.isEmpty && r.all isBinDig then some ((radixVal 2 r : Nat) : Rat)
      else none
    else parseJsSignedDecimal ('0' :: x :: r)
  | t => parseJsSignedDecimal t

/-- Model of JS `Number(string)` (continued): trim, then dispatch. -/
def numOfString (s : Str) : Option Rat :=
  numOfStringTrimmed (((s.dropWhile isJsSpace).reverse.dropWhile isJsSpace).reverse)

/-- Model of JS `Number(value)` on a JSON-derived value: `null` is 0,
booleans are 0/1, strings go through the string grammar, plain objects
are NaN, `[]` is 0 and a one-element array coerces through its single
element (via `toString`); `none` models NaN. -/
def jsToNumAux : Nat → Json → Option Rat
  | _, .null => some 0
  | _, .bool b => some (if b then 1 else 0)
  | _, .num q => some q
  | _, .str s => numOfString s
  | _, .obj _ => none
  | _, .arr [] => some 0
  | fuel, .arr [x] =>
    (match fuel, x with
    | _, .null => some 0
    | _, .bool _ => none
    | f + 1, y => jsToNumAux f y
    | 0, _ => none)
  | _, .arr (_ :: _ :: _) => none

/-- Nesting depth along first elements, a fuel bound for `jsToNumAux`. -/
def jsonDepth : Json → Nat
  | .arr (x :: _) => jsonDepth x + 1
  | _ => 1

/-- `Number(value)` with enough fuel for the nesting depth. -/
def jsToNum (j : Json) : Option Rat := jsToNumAux (jsonDepth j) j

/-- `Number(..)` applied to a property-lookup result (missing property:
`Number(undefined)` is NaN). -/
def jsToNumOpt : Option Json → Option Rat
  | none => none
  | some j => jsToNum j

/-! ## Category detection (`detectCategory` and helpers) -/

/-- The `RedFlagCategory` union type of `red-flag-prompts.ts`. -/
inductive RedFlagCategory where
  | dating
  | conversations
  | jobs
  | housing
  | marketplace
  | general
deriving DecidableEq

/-- The `validCategories` list in `validateDetectionResult`. -/
def validCategories : List RedFlagCategory :=
  [.dating, .conversations, .jobs, .housing, .marketplace, .general]

/-- `validCategories.includes(category)` on the raw string. -/
def categoryOfStr (s : Str) : Option RedFlagCategory :=
  if s == "dating".toList then some .dating
  else if s == "conversations".toList then some .conversations
  else if s == "jobs".toList then some .jobs
  else if s == "housing".toList then some .housing
  else if s == "marketplace".toList then some .marketplace
  else if s == "general".toList then some .general
  else none

/-- `CategoryDetectionResult` of `types.ts` (the informational
`reasoning` string carries no behaviour and is omitted). -/
structure CategoryDetectionResult where
  category : RedFlagCategory
  confidence : Rat
deriving DecidableEq

/-- `AI_CONFIG.categoryDetection.confidenceThreshold` = 0.7. -/
def aiConfigConfidenceThreshold : Rat := mkRat 7 10

/-- The key required by `JSON_CATEGORY_PATTERN`. -/
def categoryKey : Str := "category".toList

/-- The fallback detection result: category `general`, confidence 0.5. -/
def detectionFallback : CategoryDetectionResult := ⟨.general, mkRat 1 2⟩

/-- `validateDetectionResult`: an unrecognised (or non-string) category
falls back to `general`/0.5; a NaN or out-of-range confidence is
replaced by 0.5 while keeping the category. -/
def validateDetectionResult (parsed : Json) : CategoryDetectionResult :=
  match jsonGet parsed categoryKey with
  | some (.str s) =>
    (match categoryOfStr s with
    | some c =>
      (match jsToNumOpt (jsonGet parsed "confidence".toList) with
      | some q => if q < 0 ∨ q > 1 then ⟨c, mkRat 1 2⟩ else ⟨c, q⟩
      | none => ⟨c, mkRat 1 2⟩)
    | none => detectionFallback)
  | _ => detectionFallback

/-- `parseDetectionResult`: same three extraction strategies as
`parseAnalysisJSON` (with `JSON_CATEGORY_PATTERN`), but the catch
returns the `general`/0.5 fallback instead of throwing. -/
def parseDetectionResult (text : Str) : CategoryDetectionResult :=
  match fencedCapture text with
  | some body =>
    (match jsonParse body with
    | some j => validateDetectionResult j
    | none => detectionFallback)
  | none =>
    match objectMatch categoryKey text with
    | some m =>
      (match jsonParse m with
      | some j => validateDetectionResult j
      | none => detectionFallback)
    | none =>
      match jsonParse text with
      | some j => validateDetectionResult j
      | none => detectionFallback

/-- `detectCategory`: the oracle is the `generateText` outcome (response
text or a thrown error); a thrown error is caught and yields the
fallback; a result below the 0.7 confidence threshold is replaced by
`general` at the same confidence. -/
def detectCategory (o : Except Str Str) : CategoryDetectionResult :=
  match o with
  | .error _ => detectionFallback
  | .ok text =>
    let result := parseDetectionResult text
    if result.confidence < aiConfigConfidenceThreshold then
      ⟨.general, result.confidence⟩
    else result

/-! ## Decimal printing and string ordering, used by the usage queries -/

/-- Decimal digits of a natural number, with structural fuel. -/
def natToStrAux : Nat → Nat → Str
  | 0, _ => []
  | fuel + 1, n =>
    if n < 10 then [Nat.digitChar n]
    else natToStrAux fuel (n / 10) ++ [Nat.digitChar (n % 10)]

/-- Decimal representation of a natural number (JS `String(n)`). -/
def natToStr (n : Nat) : Str := natToStrAux (n + 1) n

/-- `String.prototype.padStart(k, c)`. -/
def padStart (k : Nat) (c : Char) (s : Str) : Str :=
  List.replicate (k - s.length) c ++ s

/-- Least `k ≤ 50` with `d ∣ 10^k` (every number the modelled code
prints is a terminating decimal). -/
def decExpOf (d : Nat) : Option Nat :=
  (List.range 51).find? (fun k => 10 ^ k % d == 0)

/-- Digits-and-point assembly for `ratToJsStr`: print `units / 10^k`
with an optional sign. -/
def ratToJsStrCore (sign : Bool) (units k : Nat) : Str :=
  let ds := padStart (k + 1) '0' (natToStr units)
  let ipart := ds.take (ds.length - k)
  let fpart := ds.drop (ds.length - k)
  let core := if k == 0 then ipart else ipart ++ '.' :: fpart
  if sign then '-' :: core else core

/-- Exact decimal printing of a terminating rational (JS `String(n)` for
integers and for the terminating decimals the code produces). -/
def ratToJsStr (q : Rat) : Str :=
  match decExpOf q.den with
  | some k => ratToJsStrCore (decide (q.num < 0)) (q.num.natAbs * 10 ^ k / q.den) k
  | none => natToStr q.num.natAbs ++ '/' :: natToStr q.den

/-- Template interpolation of a possibly-NaN number. -/
def jsNumToStr : Option Rat → Str
  | none => "NaN".toList
  | some q => ratToJsStr q

/-- JS `String.prototype.split("-")`. -/
def splitDash : Str → List Str
  | [] => [[]]
  | c :: r =>
    if c == '-' then [] :: splitDash r
    else
      match splitDash r with
      | h :: t => (c :: h) :: t
      | [] => [[c]]

/-- Arithmetic on a possibly-NaN number (NaN propagates). -/
def jsAddNum (a : Option Rat) (b : Rat) : Option Rat := a.map (fun q => qAdd q b)

/-- Lexicographic strict order on strings by code point, the model of
the SQL comparison of ISO-formatted `date` values. -/
def strLt : Str → Str → Bool
  | [], [] => false
  | [], _ :: _ => true
  | _ :: _, [] => false
  | a :: as, b :: bs => if a == b then strLt as bs else decide (a < b)

/-- Non-strict lexicographic order. -/
def strLe (a b : Str) : Bool := !(strLt b a)

/-! ## The `UsageLogs` table and its queries
(`src/lib/db/queries.ts` and the `/api/usage` route) -/

/-- One row of the `UsageLogs` table.  `id` is the uuid primary key,
`date` an ISO `YYYY-MM-DD` date. -/
structure UsageLog where
  id : Str
  userId : Str
  date : Str
  analysisCount : Int
deriving DecidableEq

/-- The WHERE clause shared by the daily queries:
`eq(usageLogs.userId, userId), eq(usageLogs.date, today)`. -/
def usageMatches (userId date : Str) (r : UsageLog) : Bool :=
  r.userId == userId && r.date == date

/-- `getUserDailyUsage`: SUM of `analysisCount` over all of the user's
rows dated `today` (NULL sum for no rows read back as 0). -/
def getUserDailyUsage (tbl : List UsageLog) (userId today : Str) : Int :=
  ((tbl.filter (usageMatches userId today)).map (·.analysisCount)).sum

/-- The daily-usage computation of `GET /api/usage`: `COALESCE(analysisCount, 0)`
of a single row selected with LIMIT 1 (modelled as the first matching
row in table order), 0 when the user has no row for today. -/
def usageRouteDailyUsage (tbl : List UsageLog) (userId today : Str) : Int :=
  match tbl.find? (usageMatches userId today) with
  | some r => r.analysisCount
  | none => 0

/-- `getUserMonthlyUsage`: parse `month.slice(0, 7)` as `YYYY-MM` via
`split("-").map(Number)`, roll December over to January of the next
year, and sum `analysisCount` over the user's rows with
`startDate ≤ date < endDate`. -/
def getUserMonthlyUsage (tbl : List UsageLog) (userId month : Str) : Int :=
  let monthPrefix := month.take 7
  let startDate := monthPrefix ++ "-01".toList
  let parts := splitDash monthPrefix
  let year := numOfString (parts.getD 0 [])
  let monthNum := numOfString (parts.getD 1 [])
  let nextMonth :=
    if monthNum = some 12 then some (1 : Rat) else jsAddNum monthNum 1
  let nextYear := if monthNum = some 12 then jsAddNum year 1 else year
  let endDate := jsNumToStr nextYear ++ ['-'] ++
    padStart 2 '0' (jsNumToStr nextMonth) ++ "-01".toList
  ((tbl.filter (fun r =>
      r.userId == userId && strLe startDate r.date && strLt r.date endDate)).map
    (·.analysisCount)).sum

/-- The row transformation of the UPDATE
`set analysisCount = existingEntry.analysisCount + 1 where id = existingEntry.id`. -/
def bumpRow (existingEntry r : UsageLog) : UsageLog :=
  if r.id == existingEntry.id then
    { r with analysisCount := existingEntry.analysisCount + 1 }
  else r

/-- `incrementUsage`: bump the LIMIT-1 row for (user, today) by id, or
insert a fresh row with `analysisCount` 1 (the database supplies the
fresh uuid). -/
def incrementUsage (tbl : List UsageLog) (userId today freshId : Str) :
    List UsageLog :=
  match tbl.find? (usageMatches userId today) with
  | some existingEntry => tbl.map (bumpRow existingEntry)
  | none => tbl ++ [⟨freshId, userId, today, 1⟩]

/-! ## The email-verification route (`GET /api/auth/verify-email`) -/

/-- One row of the `User` table, restricted to the columns the route
reads or writes. -/
structure UserRow where
  id : Str
  emailVerified : Option Str
  verificationToken : Option Str
deriving DecidableEq

/-- The four pages the route can respond with. -/
inductive VerifyResponse where
  | missingToken
  | notFound
  | alreadyVerified
  | verified
deriving DecidableEq

/-- HTTP status of each page. -/
def verifyStatus : VerifyResponse → Nat
  | .missingToken => 400
  | .notFound => 404
  | .alreadyVerified => 200
  | .verified => 200

/-- The row transformation of the UPDATE
`set emailVerified = now, verificationToken = null where id = foundUser.id`. -/
def verifyUpdate (foundUser : UserRow) (now : Str) (r : UserRow) : UserRow :=
  if r.id == foundUser.id then
    { r with emailVerified := some now, verificationToken := none }
  else r

/-- The verify-email GET handler: a missing (or empty, hence falsy)
token is a 400; an unmatched token a 404; a matched, already-verified
user a 200 with no write; otherwise the matched user's `emailVerified`
is set to now and the token cleared. -/
def verifyEmailGET (tbl : List UserRow) (token : Option Str) (now : Str) :
    VerifyResponse × List UserRow :=
  match token with
  | none => (.missingToken, tbl)
  | some t =>
    if t.isEmpty then (.missingToken, tbl)
    else
      match tbl.find? (fun u => u.verificationToken == some t) with
      | none => (.notFound, tbl)
      | some foundUser =>
        if foundUser.emailVerified.isSome then (.alreadyVerified, tbl)
        else (.verified, tbl.map (verifyUpdate foundUser now))

/-! ## The file-upload route (`POST /api/files/upload`) -/

/-- The parts of the `Blob` the route inspects. -/
structure FileBlob where
  size : Nat
  type : Str
deriving DecidableEq

/-- A POST request to the upload route, with the Cloudinary outcome as
an oracle. -/
structure UploadRequest where
  hasSession : Bool
  bodyNull : Bool
  file : Option FileBlob
  chatId : Option Str
  uploadOk : Bool

/-- The MIME types accepted by `FileSchema`. -/
def allowedFileTypes : List Str :=
  ["image/jpeg".toList, "image/png".toList, "application/pdf".toList]

/-- `FileSchema`'s size refinement message. -/
def fileSizeMsg : Str := "File size should be less than 100MB".toList

/-- `FileSchema`'s type refinement message. -/
def fileTypeMsg : Str := "File type should be JPEG, PNG, or PDF".toList

/-- The issues collected by `FileSchema.safeParse` (both refinements
run; their messages are later joined with `", "`). -/
def fileSchemaIssues (f : FileBlob) : List Str :=
  (if f.size ≤ 100 * 1024 * 1024 then [] else [fileSizeMsg]) ++
    (if allowedFileTypes.contains f.type then [] else [fileTypeMsg])

/-- `issues.map(e => e.message).join(", ")`. -/
def joinComma : List Str → Str
  | [] => []
  | [s] => s
  | s :: r => s ++ ", ".toList ++ joinComma r

/-- The responses of the upload route. -/
inductive UploadResponse where
  | unauthorized
  | badRequest (error : Str)
  | serverError (error : Str)
  | uploaded (contentType : Str) (fileSize : Nat)
deriving DecidableEq

/-- HTTP status of each response. -/
def uploadStatus : UploadResponse → Nat
  | .unauthorized => 401
  | .badRequest _ => 400
  | .serverError _ => 500
  | .uploaded _ _ => 200

/-- The POST handler: 401 without a session, 400 for a null body,
missing file, missing/empty chat id or a schema violation; otherwise
the file is uploaded and its record stored (500 if the storage call
fails). -/
def uploadPOST (req : UploadRequest) : UploadResponse :=
  if !req.hasSession then .unauthorized
  else if req.bodyNull then .badRequest "Request body is empty".toList
  else
    match req.file with
    | none => .badRequest "No file uploaded".toList
    | some f =>
      match req.chatId with
      | none => .badRequest "Chat ID required".toList
      | some cid =>
        if cid.isEmpty then .badRequest "Chat ID required".toList
        else
          match fileSchemaIssues f with
          | [] =>
            if req.uploadOk then .uploaded f.type f.size
            else .serverError "Upload failed".toList
          | issues => .badRequest (joinComma issues)

/-- Zero-padded two-digit decimal field, the `MM`/`DD` of an ISO date
(used to state C7's calendar window). -/
def pad2 (n : Nat) : Str := padStart 2 '0' (natToStr n)

/-- ISO-style `YYYY-MM-DD` date string for a four-digit year (used to
state C7's calendar window: the first day of a month). -/
def fmtDate (y m d : Nat) : Str :=
  natToStr y ++ '-' :: (pad2 m ++ '-' :: pad2 d)

/-- Whether attempt `i` of the oracle fails with a transient error. -/
def transientFailureAt (o : Nat → GeminiOutcome) (i : Nat) : Prop :=
  ∃ e, analyzeWithGemini (o i) = .error e ∧ e.type = .transient

/-! # Theorems -/

/-- LIMIT-1 selection is the head of the filtered rows. -/
lemma find?_eq_head?_filter {α : Type} (p : α → Bool) (l : List α) :
    l.find? p = (l.filter p).head? := by
  induction l with
  | nil => rfl
  | cons a t ih =>
    by_cases h : p a
    · simp [List.find?_cons, List.filter_cons, h]
    · rw [List.find?_cons_of_neg _ h, List.filter_cons_of_neg h, ih]

/-- Every error produced by `parseAnalysisJSON` has type PARSING. -/
lemma parseAnalysisJSON_error_type {t : Str} {e : AnalysisError}
    (h : parseAnalysisJSON t = .error e) : e.type = .parsing := by
  unfold parseAnalysisJSON at h
  repeat' split at h
  all_goals simp_all
  all_goals (cases h; rfl)

/-- Every `AnalysisError` produced by `validateAnalysisResult` has type
PARSING. -/
lemma validateAnalysisResult_error_type {j : Json} {e : AnalysisError}
    (h : validateAnalysisResult j = .error (.analysis e)) :
    e.type = .parsing := by
  unfold validateAnalysisResult at h
  repeat' split at h
  all_goals simp_all
  all_goals (cases h; rfl)

/-- Only `null` makes a parsed JSON value `jsonIsNull`. -/
lemma jsonIsNull_eq {j : Json} (h : jsonIsNull j = true) : j = Json.null := by
  cases j <;> simp_all [jsonIsNull]

/-- `validateAnalysisResult` throws a `TypeError` exactly at `null`, with
the null-access message. -/
lemma validateAnalysisResult_typeError {j : Json} {msg : Str}
    (h : validateAnalysisResult j = .error (.typeError msg)) :
    j = Json.null ∧ msg = nullAccessMsg := by
  unfold validateAnalysisResult at h
  split_ifs at h with h0 <;> simp_all
  exact jsonIsNull_eq h0

/-- A message with a transient keyword classifies as TRANSIENT. -/
lemma classify_transient {msg : Str}
    (h : hasTransientKeyword (toLowerStr msg) = true) :
    (classifyGeminiError msg).type = .transient := by
  unfold classifyGeminiError
  unfold hasTransientKeyword at h
  split_ifs with h1 h2 h3 h4
  · rfl
  · rfl
  · rfl
  · exfalso
    simp_all
  · rfl

/-- A message with a permanent keyword but no transient keyword
classifies as PERMANENT. -/
lemma classify_permanent {msg : Str}
    (ht : hasTransientKeyword (toLowerStr msg) = false)
    (hp : hasPermanentKeyword (toLowerStr msg) = true) :
    (classifyGeminiError msg).type = .permanent := by
  unfold classifyGeminiError
  unfold hasTransientKeyword at ht
  unfold hasPermanentKeyword at hp
  simp only [Bool.or_eq_false_iff] at ht
  obtain ⟨⟨⟨⟨⟨⟨ha, hb⟩, hc⟩, hd⟩, he⟩, hf⟩, hg⟩ := ht
  split_ifs with h1 h2 h3
  · exact absurd h1 (by simp_all)
  · exact absurd h2 (by simp_all)
  · exact absurd h3 (by simp_all)
  · rfl

/-- A message with no keyword at all classifies as TRANSIENT. -/
lemma classify_fallthrough {msg : Str}
    (_ht : hasTransientKeyword (toLowerStr msg) = false)
    (hp : hasPermanentKeyword (toLowerStr msg) = false) :
    (classifyGeminiError msg).type = .transient := by
  unfold classifyGeminiError
  unfold hasPermanentKeyword at hp
  split_ifs with h1 h2 h3 h4
  · rfl
  · rfl
  · rfl
  · rw [hp] at h4
    exact absurd h4 (by simp)
  · rfl

/-- C1 counterexample: the claim says a field-validation failure yields
type PARSING, but on the response text "null" — valid JSON parsing to
`null` — the access `result.redFlagScore` throws a `TypeError` that the
catch block (failing `instanceof AnalysisError`) classifies by keywords:
its message matches none, so the thrown error is TRANSIENT, not
PARSING. -/
theorem C1_counterexample :
    analyzeWithGemini (.text "null".toList) =
      .error ⟨"Gemini API error: ".toList ++ toLowerStr nullAccessMsg,
        .transient⟩ ∧
    ErrorType.transient ≠ ErrorType.parsing :=
  ⟨rfl, by decide⟩

/-- C1 (amended): every error thrown out of `analyzeWithGemini` is an
`AnalysisError` whose type is transient, permanent or parsing.  On a
response text, a JSON-extraction failure or a field-validation failure
on a non-null parsed result yields PARSING, but a response parsing to
`null` makes the field access throw a `TypeError` whose keyword-free
message the catch classifies TRANSIENT.  On a thrown call error, a
transient keyword ('rate limit', 'quota', '429', 'timeout', 'timed
out', '500', '503') in the lowercased message yields TRANSIENT (even if
a permanent keyword also occurs), a permanent keyword ('400',
'invalid', 'bad request') with no transient keyword yields PERMANENT,
and a message with no keyword yields TRANSIENT. -/
theorem C1_gemini_error_classification (o : GeminiOutcome) (e : AnalysisError)
    (herr : analyzeWithGemini o = .error e) :
    (e.type = .transient ∨ e.type = .permanent ∨ e.type = .parsing) ∧
    (∀ t, o = .text t →
      ((parseAnalysisJSON t = .ok Json.null →
          e = classifyGeminiError nullAccessMsg ∧ e.type = .transient) ∧
        ((∀ j, parseAnalysisJSON t = .ok j → j ≠ Json.null) →
          e.type = .parsing))) ∧
    (∀ msg, o = .failure msg →
      ((hasTransientKeyword (toLowerStr msg) = true → e.type = .transient) ∧
        (hasTransientKeyword (toLowerStr msg) = false →
          hasPermanentKeyword (toLowerStr msg) = true →
          e.type = .permanent) ∧
        (hasTransientKeyword (toLowerStr msg) = false →
          hasPermanentKeyword (toLowerStr msg) = false →
          e.type = .transient))) := by
  refine ⟨?_, ?_, ?_⟩
  · cases e.type
    · exact Or.inl rfl
    · exact Or.inr (Or.inl rfl)
    · exact Or.inr (Or.inr rfl)
  · rintro t rfl
    simp only [analyzeWithGemini] at herr
    cases hp : parseAnalysisJSON t with
    | error e' =>
      simp only [hp] at herr
      obtain rfl : e' = e := by simpa using herr
      exact ⟨fun hnull => Except.noConfusion hnull,
        fun _ => parseAnalysisJSON_error_type hp⟩
    | ok j =>
      cases hv : validateAnalysisResult j with
      | error thr =>
        cases thr with
        | analysis e' =>
          simp only [hp, hv] at herr
          obtain rfl : e' = e := by simpa using herr
          refine ⟨fun hnull => ?_,
            fun _ => validateAnalysisResult_error_type hv⟩
          obtain rfl : j = Json.null := Except.ok.inj hnull
          rw [show validateAnalysisResult Json.null =
            .error (.typeError nullAccessMsg) from rfl] at hv
          simp at hv
        | typeError msg =>
          obtain ⟨rfl, rfl⟩ := validateAnalysisResult_typeError hv
          simp only [hp, hv] at herr
          obtain rfl : classifyGeminiError nullAccessMsg = e := by
            simpa using herr
          refine ⟨fun _ => ⟨rfl, by decide⟩, fun hne => ?_⟩
          exact absurd rfl (hne Json.null rfl)
      | ok u =>
        simp only [hp, hv] at herr
        exact absurd herr (by simp)
  · rintro msg rfl
    simp only [analyzeWithGemini] at herr
    obtain rfl : classifyGeminiError msg = e := by simpa using herr
    exact ⟨fun h => classify_transient h,
      fun h1 h2 => classify_permanent h1 h2,
      fun h1 h2 => classify_fallthrough h1 h2⟩

/-- C1 witness: a call error whose message holds both a permanent
keyword ('400') and a transient keyword ('429') is classified
TRANSIENT. -/
theorem C1_witness :
    (classifyGeminiError "HTTP 400 after 429 Too Many Requests".toList).type =
      ErrorType.transient :=
  (((C1_gemini_error_classification
      (GeminiOutcome.failure "HTTP 400 after 429 Too Many Requests".toList)
      (classifyGeminiError "HTTP 400 after 429 Too Many Requests".toList)
      rfl).2.2) _ rfl).1 (by decide)

/-- C4 counterexample: the claim says `validateAnalysisResult` rejects
by throwing an `AnalysisError` of type PARSING whenever `redFlagScore`
is not a number, but at the parsed result `null` the property access
throws a `TypeError`, which is not an `AnalysisError` at all. -/
theorem C4_counterexample :
    validateAnalysisResult Json.null =
      .error (JsThrow.typeError nullAccessMsg) ∧
    ∀ e : AnalysisError,
      JsThrow.typeError nullAccessMsg ≠ JsThrow.analysis e :=
  ⟨rfl, fun _ h => JsThrow.noConfusion h⟩

/-- C4 (amended): `validateAnalysisResult` accepts exactly when
`redFlagScore` is a number, `verdict` a string and `criticalFlags` an
array; a failed check on a non-null result throws an `AnalysisError` of
type PARSING, but a `null` result makes the first property access throw
a `TypeError` instead; a result carrying only the three checked fields
is accepted whatever the score, so the other
`AI_CONFIG.analysis.requiredFields` (warnings, notices, positives,
advice) and the 0-10 range are not enforced. -/
theorem C4_validate_analysis_result (j : Json) :
    (j = Json.null →
      validateAnalysisResult j = .error (.typeError nullAccessMsg)) ∧
    (validateAnalysisResult j = .ok () ↔
      (isNumField (jsonGet j "redFlagScore".toList) = true ∧
        isStrField (jsonGet j "verdict".toList) = true ∧
        isArrField (jsonGet j "criticalFlags".toList) = true)) ∧
    (∀ e, validateAnalysisResult j = .error (.analysis e) →
      e.type = .parsing) ∧
    (∀ q v fs, validateAnalysisResult
        (Json.obj [("redFlagScore".toList, Json.num q),
          ("verdict".toList, Json.str v),
          ("criticalFlags".toList, Json.arr fs)]) = .ok ()) := by
  refine ⟨?_, ?_, ?_, ?_⟩
  · rintro rfl
    rfl
  · cases h0 : jsonIsNull j with
    | true =>
      obtain rfl := jsonIsNull_eq h0
      rw [show validateAnalysisResult Json.null =
        .error (.typeError nullAccessMsg) from rfl]
      simp [jsonGet, isNumField]
    | false =>
      unfold validateAnalysisResult
      rw [h0]
      simp only [Bool.false_eq_true, if_false]
      split_ifs with h1 h2 h3 <;> simp_all [Bool.not_eq_true']
  · intro e h
    exact validateAnalysisResult_error_type h
  · intro q v fs
    rfl

/-- C4 witness: a result with only the three checked fields and a score
of 42 (outside the configured 0-10 range) is accepted, and the result
`null` raises the `TypeError`. -/
theorem C4_witness :
    validateAnalysisResult (Json.obj [("redFlagScore".toList, Json.num 42),
      ("verdict".toList, Json.str "v".toList),
      ("criticalFlags".toList, Json.arr [])]) = .ok () ∧
    validateAnalysisResult Json.null =
      .error (JsThrow.typeError nullAccessMsg) :=
  ⟨(C4_validate_analysis_result (Json.obj [])).2.2.2 42 "v".toList [],
   (C4_validate_analysis_result Json.null).1 rfl⟩

/-- C3 counterexample: the claim says `parseAnalysisJSON` "returns the
first strategy that yields valid JSON", but on a response whose fenced
block holds unparseable text followed by a valid strategy-2 object, the
function throws PARSING instead of falling through to the valid
object-pattern JSON. -/
theorem C3_counterexample :
    parseAnalysisJSON "```json\nnope\n```\x7b\"redFlagScore\":1\x7d".toList =
      .error ⟨parsingFailureMsg, ErrorType.parsing⟩ ∧
    objectMatch redFlagScoreKey
        "```json\nnope\n```\x7b\"redFlagScore\":1\x7d".toList =
      some "\x7b\"redFlagScore\":1\x7d".toList ∧
    jsonParse "\x7b\"redFlagScore\":1\x7d".toList =
      some (Json.obj [("redFlagScore".toList, Json.num 1)]) :=
  ⟨rfl, rfl, rfl⟩

/-- C3 (amended): `parseAnalysisJSON` tries the three extraction
strategies in the fixed order fenced block, object pattern, whole
string, and commits to the FIRST whose pattern matches: that strategy's
parse result is returned (so a parseable fenced block wins even when
the whole string is also valid JSON), its parse failure throws an
`AnalysisError` of type PARSING without attempting the later
strategies, and when no strategy applies or the whole-string parse
fails the same PARSING error is thrown. -/
theorem C3_parse_strategy_cascade (t body m : Str) :
    (fencedCapture t = some body → ∀ j, jsonParse body = some j →
      parseAnalysisJSON t = .ok j) ∧
    (fencedCapture t = some body → jsonParse body = none →
      parseAnalysisJSON t = .error ⟨parsingFailureMsg, ErrorType.parsing⟩) ∧
    (fencedCapture t = none → objectMatch redFlagScoreKey t = some m →
      ∀ j, jsonParse m = some j → parseAnalysisJSON t = .ok j) ∧
    (fencedCapture t = none → objectMatch redFlagScoreKey t = some m →
      jsonParse m = none →
      parseAnalysisJSON t = .error ⟨parsingFailureMsg, ErrorType.parsing⟩) ∧
    (fencedCapture t = none → objectMatch redFlagScoreKey t = none →
      ∀ j, jsonParse t = some j → parseAnalysisJSON t = .ok j) ∧
    (fencedCapture t = none → objectMatch redFlagScoreKey t = none →
      jsonParse t = none →
      parseAnalysisJSON t = .error ⟨parsingFailureMsg, ErrorType.parsing⟩) := by
  refine ⟨?_, ?_, ?_, ?_, ?_, ?_⟩
  · intro h1 j h2
    simp only [parseAnalysisJSON, h1, h2]
  · intro h1 h2
    simp only [parseAnalysisJSON, h1, h2]
  · intro h1 h2 j h3
    simp only [parseAnalysisJSON, h1, h2, h3]
  · intro h1 h2 h3
    simp only [parseAnalysisJSON, h1, h2, h3]
  · intro h1 h2 j h3
    simp only [parseAnalysisJSON, h1, h2, h3]
  · intro h1 h2 h3
    simp only [parseAnalysisJSON, h1, h2, h3]

/-- C3 witness: a response that is exactly one parseable fenced block is
parsed through strategy 1. -/
theorem C3_witness :
    parseAnalysisJSON "```json\n\x7b\"redFlagScore\":1\x7d\n```".toList =
      .ok (Json.obj [("redFlagScore".toList, Json.num 1)]) :=
  (C3_parse_strategy_cascade
      "```json\n\x7b\"redFlagScore\":1\x7d\n```".toList
      "\x7b\"redFlagScore\":1\x7d".toList []).1 rfl
    (Json.obj [("redFlagScore".toList, Json.num 1)]) rfl

/-- C8: the detection pipeline always lands in one of the six
categories and never throws: a failing model call, an unparseable
response, or an unrecognised (or non-string) category yields
`general`/0.5, a NaN or out-of-[0,1] confidence is replaced by 0.5
while keeping the detected category, and whenever the resulting
confidence is below the 0.7 threshold `detectCategory` returns
`general`. -/
theorem C8_detection_pipeline :
    (∀ o, (detectCategory o).category ∈ validCategories) ∧
    (∀ msg, detectCategory (.error msg) = detectionFallback) ∧
    (∀ t body, fencedCapture t = some body → jsonParse body = none →
      parseDetectionResult t = detectionFallback) ∧
    (∀ t m, fencedCapture t = none → objectMatch categoryKey t = some m →
      jsonParse m = none → parseDetectionResult t = detectionFallback) ∧
    (∀ t, fencedCapture t = none → objectMatch categoryKey t = none →
      jsonParse t = none → parseDetectionResult t = detectionFallback) ∧
    (∀ j, jsonGet j categoryKey = none →
      validateDetectionResult j = detectionFallback) ∧
    (∀ j v, jsonGet j categoryKey = some v → isStrField (some v) = false →
      validateDetectionResult j = detectionFallback) ∧
    (∀ j s, jsonGet j categoryKey = some (.str s) → categoryOfStr s = none →
      validateDetectionResult j = detectionFallback) ∧
    (∀ j s c, jsonGet j categoryKey = some (.str s) →
      categoryOfStr s = some c →
      jsToNumOpt (jsonGet j "confidence".toList) = none →
      validateDetectionResult j = ⟨c, mkRat 1 2⟩) ∧
    (∀ j s c q, jsonGet j categoryKey = some (.str s) →
      categoryOfStr s = some c →
      jsToNumOpt (jsonGet j "confidence".toList) = some q →
      (q < 0 ∨ q > 1) → validateDetectionResult j = ⟨c, mkRat 1 2⟩) ∧
    (∀ o, (detectCategory o).confidence < aiConfigConfidenceThreshold →
      (detectCategory o).category = RedFlagCategory.general) := by
  refine ⟨?_, ?_, ?_, ?_, ?_, ?_, ?_, ?_, ?_, ?_, ?_⟩
  · intro o
    cases (detectCategory o).category <;> simp [validCategories]
  · intro msg
    rfl
  · intro t body h1 h2
    simp only [parseDetectionResult, h1, h2]
  · intro t m h1 h2 h3
    simp only [parseDetectionResult, h1, h2, h3]
  · intro t h1 h2 h3
    simp only [parseDetectionResult, h1, h2, h3]
  · intro j h
    simp only [validateDetectionResult, h]
  · intro j v h hs
    cases v with
    | str s => simp [isStrField] at hs
    | null => simp only [validateDetectionResult, h]
    | bool b => simp only [validateDetectionResult, h]
    | num q => simp only [validateDetectionResult, h]
    | arr es => simp only [validateDetectionResult, h]
    | obj fs => simp only [validateDetectionResult, h]
  · intro j s h hc
    simp only [validateDetectionResult, h, hc]
  · intro j s c h hc hn
    simp only [validateDetectionResult, h, hc, hn]
  · intro j s c q h hc hq hb
    simp only [validateDetectionResult, h, hc, hq]
    rw [if_pos hb]
  · intro o h
    cases o with
    | error msg => rfl
    | ok t =>
      simp only [detectCategory] at h ⊢
      split_ifs at h ⊢ with hc
      · rfl
      · exact absurd h hc

/-- C8 witness: a thrown model-call error yields the `general` fallback
whose 0.5 confidence is below the threshold. -/
theorem C8_witness :
    (detectCategory (Except.error "network down".toList)).category =
      RedFlagCategory.general :=
  C8_detection_pipeline.2.2.2.2.2.2.2.2.2.2
    (Except.error "network down".toList) (by decide)

/-- A successful attempt returns at once. -/
lemma retryLoop_ok (o : Nat → GeminiOutcome) (ds : List Nat)
    (mr fuel a : Nat) (r : Json) (h : analyzeWithGemini (o a) = .ok r) :
    retryLoop o ds mr (fuel + 1) a = ⟨1, [], .ok r⟩ := by
  simp only [retryLoop, h]

/-- A permanent or parsing error is rethrown at once. -/
lemma retryLoop_fatal (o : Nat → GeminiOutcome) (ds : List Nat)
    (mr fuel a : Nat) (e : AnalysisError)
    (h : analyzeWithGemini (o a) = .error e)
    (ht : e.type = .permanent ∨ e.type = .parsing) :
    retryLoop o ds mr (fuel + 1) a = ⟨1, [], .error e⟩ := by
  rcases ht with ht | ht
  · simp only [retryLoop, h]
    rw [if_pos ht]
  · simp only [retryLoop, h]
    rw [if_neg (by simp [ht]), if_pos ht]

/-- A transient error on a non-final attempt waits `delays[attempt]`
and retries. -/
lemma retryLoop_step (o : Nat → GeminiOutcome) (ds : List Nat)
    (mr fuel a : Nat) (e : AnalysisError) (ha : a < mr - 1)
    (h : analyzeWithGemini (o a) = .error e) (ht : e.type = .transient) :
    retryLoop o ds mr (fuel + 1) a =
      ⟨(retryLoop o ds mr fuel (a + 1)).calls + 1,
        ds.getD a 0 :: (retryLoop o ds mr fuel (a + 1)).waits,
        (retryLoop o ds mr fuel (a + 1)).result⟩ := by
  simp only [retryLoop, h]
  rw [if_neg (by simp [ht]), if_neg (by simp [ht]), if_pos ha]

/-- A transient error on the final attempt throws `unavailableError`. -/
lemma retryLoop_final (o : Nat → GeminiOutcome) (ds : List Nat)
    (mr fuel a : Nat) (e : AnalysisError) (ha : ¬a < mr - 1)
    (h : analyzeWithGemini (o a) = .error e) (ht : e.type = .transient) :
    retryLoop o ds mr (fuel + 1) a = ⟨1, [], .error unavailableError⟩ := by
  simp only [retryLoop, h]
  rw [if_neg (by simp [ht]), if_neg (by simp [ht]), if_neg ha]

/-- The loop calls the API at most `fuel` times. -/
lemma retryLoop_calls_le (o : Nat → GeminiOutcome) (ds : List Nat)
    (mr : Nat) (fuel : Nat) : ∀ a, (retryLoop o ds mr fuel a).calls ≤ fuel := by
  induction fuel with
  | zero =>
    intro a
    exact Nat.le_refl 0
  | succ n ih =>
    intro a
    cases hg : analyzeWithGemini (o a) with
    | ok r =>
      rw [retryLoop_ok o ds mr n a r hg]
      exact Nat.succ_le_succ (Nat.zero_le n)
    | error e =>
      by_cases hp : e.type = .permanent ∨ e.type = .parsing
      · rw [retryLoop_fatal o ds mr n a e hg hp]
        exact Nat.succ_le_succ (Nat.zero_le n)
      · have ht : e.type = .transient := by
          cases htc : e.type with
          | transient => rfl
          | permanent => exact absurd (Or.inl htc) hp
          | parsing => exact absurd (Or.inr htc) hp
        by_cases ha : a < mr - 1
        · rw [retryLoop_step o ds mr n a e ha hg ht]
          have h2 := ih (a + 1)
          show (retryLoop o ds mr n (a + 1)).calls + 1 ≤ n + 1
          omega
        · rw [retryLoop_final o ds mr n a e ha hg ht]
          exact Nat.succ_le_succ (Nat.zero_le n)

/-- Running the loop across `i` leading transient failures performs the
`i` first delays and then continues from attempt `a + i`. -/
lemma retryLoop_prefix (o : Nat → GeminiOutcome) (ds : List Nat) (mr : Nat) :
    ∀ (i f a : Nat), a + i ≤ mr - 1 →
      (∀ j, j < i → transientFailureAt o (a + j)) →
      retryLoop o ds mr (f + i) a =
        ⟨(retryLoop o ds mr f (a + i)).calls + i,
          (List.range i).map (fun j => ds.getD (a + j) 0) ++
            (retryLoop o ds mr f (a + i)).waits,
          (retryLoop o ds mr f (a + i)).result⟩ := by
  intro i
  induction i with
  | zero =>
    intro f a _ _
    simp
  | succ n ih =>
    intro f a hle ht
    obtain ⟨e, he, het⟩ := ht 0 (Nat.succ_pos n)
    have hstep := retryLoop_step o ds mr (f + n) a e (by omega) he het
    rw [show f + (n + 1) = (f + n) + 1 from rfl, hstep]
    have hih := ih f (a + 1) (by omega) (fun j hj => by
      have h2 := ht (j + 1) (by omega)
      rwa [show a + (j + 1) = a + 1 + j by omega] at h2)
    rw [hih]
    have hidx : a + 1 + n = a + (n + 1) := by omega
    rw [hidx]
    have hrange : (List.range (n + 1)).map (fun j => ds.getD (a + j) 0) =
        ds.getD a 0 :: (List.range n).map (fun j => ds.getD (a + 1 + j) 0) := by
      rw [List.range_succ_eq_map, List.map_cons, List.map_map]
      refine congrArg (ds.getD (a + 0) 0 :: ·) ?_
      exact List.map_congr_left (fun j _ => by
        show ds.getD (a + (j + 1)) 0 = ds.getD (a + 1 + j) 0
        rw [show a + (j + 1) = a + 1 + j by omega])
    rw [hrange]
    simp only [RetryTrace.mk.injEq, List.cons_append, and_true, true_and]
    omega

/-- C2: for every oracle and every `maxRetries` (3 by default),
`analyzeWithRetry` invokes `analyzeWithGemini` at most `maxRetries`
times; after leading transient failures, a PERMANENT or PARSING error
on attempt `i` is rethrown at once after exactly `i + 1` invocations
and waits `delays[0..i-1]`; a success on attempt `i` likewise returns
after `i + 1` invocations; and if every attempt fails transiently the
caller receives a TRANSIENT `AnalysisError` reading 'AI temporarily
unavailable. Please try again later.' after `maxRetries` invocations
and waits of `delays[0..maxRetries-2]` (1000 then 3000 ms at the
default 3). -/
theorem C2_retry_wrapper (o : Nat → GeminiOutcome) (mr : Nat) :
    ((analyzeWithRetryN o mr).calls ≤ mr) ∧
    (∀ i e, i < mr → (∀ j, j < i → transientFailureAt o j) →
      analyzeWithGemini (o i) = .error e →
      (e.type = .permanent ∨ e.type = .parsing) →
      analyzeWithRetryN o mr =
        ⟨i + 1, (List.range i).map (fun j => aiConfigRetryDelays.getD j 0),
          .error e⟩) ∧
    (∀ i r, i < mr → (∀ j, j < i → transientFailureAt o j) →
      analyzeWithGemini (o i) = .ok r →
      analyzeWithRetryN o mr =
        ⟨i + 1, (List.range i).map (fun j => aiConfigRetryDelays.getD j 0),
          .ok r⟩) ∧
    ((∀ j, j < mr → transientFailureAt o j) → 0 < mr →
      analyzeWithRetryN o mr =
        ⟨mr, (List.range (mr - 1)).map
            (fun j => aiConfigRetryDelays.getD j 0),
          .error unavailableError⟩) := by
  refine ⟨retryLoop_calls_le o aiConfigRetryDelays mr mr 0, ?_, ?_, ?_⟩
  · intro i e hi ht he hty
    show retryLoop o aiConfigRetryDelays mr mr 0 = _
    have hfuel : retryLoop o aiConfigRetryDelays mr mr 0 =
        retryLoop o aiConfigRetryDelays mr ((mr - i) + i) 0 := by
      rw [Nat.sub_add_cancel (Nat.le_of_lt hi)]
    rw [hfuel,
      retryLoop_prefix o aiConfigRetryDelays mr i (mr - i) 0 (by omega)
        (fun j hj => by simpa using ht j hj)]
    rw [show (0 : Nat) + i = i by omega,
      show mr - i = (mr - i - 1) + 1 by omega,
      retryLoop_fatal o aiConfigRetryDelays mr (mr - i - 1) i e he hty]
    simp only [List.append_nil, RetryTrace.mk.injEq]
    refine ⟨by omega, ?_, trivial⟩
    exact List.map_congr_left (fun j _ => by rw [Nat.zero_add])
  · intro i r hi ht he
    show retryLoop o aiConfigRetryDelays mr mr 0 = _
    have hfuel : retryLoop o aiConfigRetryDelays mr mr 0 =
        retryLoop o aiConfigRetryDelays mr ((mr - i) + i) 0 := by
      rw [Nat.sub_add_cancel (Nat.le_of_lt hi)]
    rw [hfuel,
      retryLoop_prefix o aiConfigRetryDelays mr i (mr - i) 0 (by omega)
        (fun j hj => by simpa using ht j hj)]
    rw [show (0 : Nat) + i = i by omega,
      show mr - i = (mr - i - 1) + 1 by omega,
      retryLoop_ok o aiConfigRetryDelays mr (mr - i - 1) i r he]
    simp only [List.append_nil, RetryTrace.mk.injEq]
    refine ⟨by omega, ?_, trivial⟩
    exact List.map_congr_left (fun j _ => by rw [Nat.zero_add])
  · intro ht hmr
    obtain ⟨e, he, het⟩ := ht (mr - 1) (by omega)
    show retryLoop o aiConfigRetryDelays mr mr 0 = _
    have hfuel : retryLoop o aiConfigRetryDelays mr mr 0 =
        retryLoop o aiConfigRetryDelays mr (1 + (mr - 1)) 0 := by
      rw [show 1 + (mr - 1) = mr by omega]
    rw [hfuel,
      retryLoop_prefix o aiConfigRetryDelays mr (mr - 1) 1 0 (by omega)
        (fun j hj => by
          have h2 := ht j (by omega)
          simpa using h2)]
    rw [show (0 : Nat) + (mr - 1) = mr - 1 by omega,
      show (1 : Nat) = 0 + 1 from rfl,
      retryLoop_final o aiConfigRetryDelays mr 0 (mr - 1) e (by omega) he het]
    simp only [List.append_nil, RetryTrace.mk.injEq]
    refine ⟨by omega, ?_, trivial⟩
    exact List.map_congr_left (fun j _ => by rw [Nat.zero_add])

/-- C2 witness: an oracle that always times out exhausts the default 3
attempts, waits 1000 then 3000 ms, and surfaces the unavailable
message. -/
theorem C2_witness :
    analyzeWithRetry (fun _ => GeminiOutcome.failure "timeout".toList) =
      ⟨3, [1000, 3000], .error unavailableError⟩ :=
  (C2_retry_wrapper (fun _ => GeminiOutcome.failure "timeout".toList)
      3).2.2.2
    (fun j _ => ⟨classifyGeminiError "timeout".toList, rfl, rfl⟩)
    (by omega)

/-- C5 counterexample: the `UsageLogs` schema has no unique constraint
on (userId, date), and on a state with two rows for the same user and
day the route's LIMIT-1 read returns one row's count while
`getUserDailyUsage` sums both. -/
theorem C5_counterexample :
    usageRouteDailyUsage
        [⟨"id-a".toList, "u".toList, "2025-10-11".toList, 1⟩,
          ⟨"id-b".toList, "u".toList, "2025-10-11".toList, 2⟩]
        "u".toList "2025-10-11".toList = 1 ∧
    getUserDailyUsage
        [⟨"id-a".toList, "u".toList, "2025-10-11".toList, 1⟩,
          ⟨"id-b".toList, "u".toList, "2025-10-11".toList, 2⟩]
        "u".toList "2025-10-11".toList = 3 ∧
    (1 : Int) ≠ 3 :=
  ⟨rfl, rfl, by decide⟩

/-- C5 (amended): on every table state in which the user has at most
one row dated today — the invariant `incrementUsage` maintains — the
route's LIMIT-1 `COALESCE(analysisCount, 0)` equals
`getUserDailyUsage`'s sum; with several such rows the two differ. -/
theorem C5_daily_usage_equiv (tbl : List UsageLog) (userId today : Str)
    (h : (tbl.filter (usageMatches userId today)).length ≤ 1) :
    usageRouteDailyUsage tbl userId today =
      getUserDailyUsage tbl userId today := by
  unfold usageRouteDailyUsage getUserDailyUsage
  rw [find?_eq_head?_filter]
  cases hl : tbl.filter (usageMatches userId today) with
  | nil => rfl
  | cons a t =>
    cases t with
    | nil => simp
    | cons b t' =>
      rw [hl] at h
      simp at h

/-- C5 witness: on a single-row state both computations give that
row's count. -/
theorem C5_witness :
    usageRouteDailyUsage [⟨"id-a".toList, "u".toList, "2025-10-11".toList, 2⟩]
        "u".toList "2025-10-11".toList =
      getUserDailyUsage [⟨"id-a".toList, "u".toList, "2025-10-11".toList, 2⟩]
        "u".toList "2025-10-11".toList :=
  C5_daily_usage_equiv
    [⟨"id-a".toList, "u".toList, "2025-10-11".toList, 2⟩]
    "u".toList "2025-10-11".toList (by decide)

/-- C9 counterexample: the claim says a text file of at most 100 MB is
accepted, but `FileSchema` allows only JPEG, PNG and PDF, so an
authenticated upload of a 10-byte `text/plain` file with a chat id is
rejected with status 400. -/
theorem C9_counterexample :
    uploadPOST ⟨true, false, some ⟨10, "text/plain".toList⟩,
        some "chat-1".toList, true⟩ =
      .badRequest fileTypeMsg ∧
    uploadStatus (uploadPOST ⟨true, false, some ⟨10, "text/plain".toList⟩,
        some "chat-1".toList, true⟩) = 400 :=
  ⟨rfl, rfl⟩

/-- C9 (amended): a request without an authenticated session is
rejected with 401 and nothing is stored; with a session, a non-null
body, a file and a nonempty chat id (and a succeeding storage call),
the upload responds with the stored file's content type exactly when
the file is a JPEG, PNG or PDF of at most 100 MB, and is rejected with
status 400 otherwise — text files are not accepted. -/
theorem C9_upload_validation (req : UploadRequest) (f : FileBlob)
    (cid : Str) (hs : req.hasSession = true) (hb : req.bodyNull = false)
    (hf : req.file = some f) (hc : req.chatId = some cid) (hcne : cid ≠ [])
    (hu : req.uploadOk = true) :
    (∀ r : UploadRequest, r.hasSession = false →
      uploadPOST r = .unauthorized) ∧
    (uploadPOST req = .uploaded f.type f.size ↔
      (f.size ≤ 100 * 1024 * 1024 ∧ f.type ∈ allowedFileTypes)) ∧
    (¬(f.size ≤ 100 * 1024 * 1024 ∧ f.type ∈ allowedFileTypes) →
      uploadStatus (uploadPOST req) = 400) := by
  have hne : cid.isEmpty = false := by
    cases cid with
    | nil => exact absurd rfl hcne
    | cons c r => rfl
  refine ⟨?_, ?_, ?_⟩
  · intro r hr
    simp [uploadPOST, hr]
  · constructor
    · intro h
      by_cases h1 : f.size ≤ 100 * 1024 * 1024 <;>
        by_cases h2 : f.type ∈ allowedFileTypes
      · exact ⟨h1, h2⟩
      all_goals simp [uploadPOST, hs, hb, hf, hc, hne, hu, fileSchemaIssues,
        h1, h2] at h
    · rintro ⟨h1, h2⟩
      simp [uploadPOST, hs, hb, hf, hc, hne, hu, fileSchemaIssues, h1, h2]
  · intro h
    by_cases h1 : f.size ≤ 100 * 1024 * 1024 <;>
      by_cases h2 : f.type ∈ allowedFileTypes
    · exact absurd ⟨h1, h2⟩ h
    all_goals simp [uploadPOST, uploadStatus, hs, hb, hf, hc, hne, hu,
      fileSchemaIssues, h1, h2]

/-- C9 witness: an authenticated PNG upload of 2 KB with a chat id is
accepted and stored with its content type. -/
theorem C9_witness :
    uploadPOST ⟨true, false, some ⟨2048, "image/png".toList⟩,
        some "chat-1".toList, true⟩ =
      .uploaded "image/png".toList 2048 :=
  ((C9_upload_validation ⟨true, false, some ⟨2048, "image/png".toList⟩,
      some "chat-1".toList, true⟩ ⟨2048, "image/png".toList⟩
      "chat-1".toList rfl rfl rfl rfl (by decide) rfl).2.1).mpr
    ⟨by decide, by decide⟩

/-- C10: with unique row ids and a token `t` held by exactly the
unverified user `u`, the first GET responds with the verified page,
sets `u`'s `emailVerified` to now and clears the token while leaving
every other row unchanged; a second GET with the same token matches no
user, responds 404 and changes nothing; and a GET whose token matches
an already-verified user responds with the already-verified page
without modifying any row. -/
theorem C10_verify_email_single_use (tbl : List UserRow) (u : UserRow)
    (t now now2 : Str)
    (hids : ∀ r ∈ tbl, ∀ s ∈ tbl, r.id = s.id → r = s)
    (huniq : tbl.filter (fun r => r.verificationToken == some t) = [u])
    (hunv : u.emailVerified = none) (htne : t ≠ []) :
    (verifyEmailGET tbl (some t) now).1 = .verified ∧
    ({u with emailVerified := some now, verificationToken := none} ∈
      (verifyEmailGET tbl (some t) now).2) ∧
    (∀ r ∈ tbl, r ≠ u → r ∈ (verifyEmailGET tbl (some t) now).2) ∧
    (verifyEmailGET (verifyEmailGET tbl (some t) now).2 (some t) now2 =
      (.notFound, (verifyEmailGET tbl (some t) now).2)) ∧
    (∀ tbl2 v, tbl2.find? (fun r => r.verificationToken == some t) = some v →
      v.emailVerified.isSome = true →
      verifyEmailGET tbl2 (some t) now = (.alreadyVerified, tbl2)) := by
  have hte : t.isEmpty = false := by
    cases t with
    | nil => exact absurd rfl htne
    | cons c r => rfl
  have hfind : tbl.find? (fun r => r.verificationToken == some t) = some u := by
    rw [find?_eq_head?_filter, huniq]
    rfl
  have humem : u ∈ tbl := by
    have h1 : u ∈ tbl.filter (fun r => r.verificationToken == some t) := by
      rw [huniq]
      exact List.mem_singleton_self u
    exact List.mem_of_mem_filter h1
  have hres : verifyEmailGET tbl (some t) now =
      (.verified, tbl.map (verifyUpdate u now)) := by
    simp only [verifyEmailGET, hte, hfind, hunv]
    rfl
  refine ⟨?_, ?_, ?_, ?_, ?_⟩
  · rw [hres]
  · rw [hres]
    have hu : verifyUpdate u now u =
        {u with emailVerified := some now, verificationToken := none} := by
      unfold verifyUpdate
      rw [if_pos (by simp)]
    rw [← hu]
    exact List.mem_map_of_mem _ humem
  · intro r hr hne
    rw [hres]
    have hidne : r.id ≠ u.id := fun h => hne (hids r hr u humem h)
    have hfix : verifyUpdate u now r = r := by
      unfold verifyUpdate
      rw [if_neg (by simp [hidne])]
    rw [← hfix]
    exact List.mem_map_of_mem _ hr
  · rw [hres]
    have hnone : (tbl.map (verifyUpdate u now)).find?
        (fun r => r.verificationToken == some t) = none := by
      apply List.find?_eq_none.mpr
      intro x hx
      obtain ⟨r, hr, rfl⟩ := List.mem_map.mp hx
      by_cases hid : (r.id == u.id) = true
      · simp [verifyUpdate, hid]
      · unfold verifyUpdate
        rw [if_neg hid]
        intro hq
        have hrf : r ∈ tbl.filter (fun r => r.verificationToken == some t) :=
          List.mem_filter.mpr ⟨hr, hq⟩
        rw [huniq] at hrf
        have : r = u := List.eq_of_mem_singleton hrf
        subst this
        exact hid (by simp)
    simp only [verifyEmailGET, hte, hnone]
    rfl
  · intro tbl2 v hf hv
    simp only [verifyEmailGET, hte, hf, hv]
    rfl

/-- C10 witness: on a two-user table, verifying the unverified user's
token flips that row and only that row, and replaying the token hits
the 404 page with the table unchanged. -/
theorem C10_witness :
    (verifyEmailGET
        [⟨"id-1".toList, none, some "tok".toList⟩,
          ⟨"id-2".toList, some "t0".toList, some "tok-2".toList⟩]
        (some "tok".toList) "NOW".toList).1 = .verified ∧
    verifyEmailGET
        [⟨"id-1".toList, some "NOW".toList, none⟩,
          ⟨"id-2".toList, some "t0".toList, some "tok-2".toList⟩]
        (some "tok".toList) "N2".toList =
      (.notFound,
        [⟨"id-1".toList, some "NOW".toList, none⟩,
          ⟨"id-2".toList, some "t0".toList, some "tok-2".toList⟩]) := by
  have h := C10_verify_email_single_use
    [⟨"id-1".toList, none, some "tok".toList⟩,
      ⟨"id-2".toList, some "t0".toList, some "tok-2".toList⟩]
    ⟨"id-1".toList, none, some "tok".toList⟩
    "tok".toList "NOW".toList "N2".toList
    (by decide) (by decide) rfl (by decide)
  exact ⟨h.1, h.2.2.2.1⟩

/-- Bumping an entry's count never changes which (user, date) pair a
row belongs to. -/
lemma usageMatches_bumpRow (e : UsageLog) (p q : Str) (r : UsageLog) :
    usageMatches p q (bumpRow e r) = usageMatches p q r := by
  unfold bumpRow
  by_cases h : (r.id == e.id) = true <;> simp [h, usageMatches]

/-- C6: on a state with unique row ids and at most one row for (user,
today), `incrementUsage` raises `getUserDailyUsage` for that user by
exactly one — inserting a fresh row with `analysisCount` 1 when no row
for today existed — and the rows of every other (user, date) pair are
left untouched. -/
theorem C6_increment_usage (tbl : List UsageLog) (userId today freshId : Str)
    (hids : ∀ r ∈ tbl, ∀ s ∈ tbl, r.id = s.id → r = s)
    (h1 : (tbl.filter (usageMatches userId today)).length ≤ 1) :
    (getUserDailyUsage (incrementUsage tbl userId today freshId) userId today =
      getUserDailyUsage tbl userId today + 1) ∧
    (tbl.filter (usageMatches userId today) = [] →
      incrementUsage tbl userId today freshId =
        tbl ++ [⟨freshId, userId, today, 1⟩]) ∧
    (∀ userId' date', ¬(userId' = userId ∧ date' = today) →
      (incrementUsage tbl userId today freshId).filter
          (usageMatches userId' date') =
        tbl.filter (usageMatches userId' date')) := by
  cases hf : tbl.find? (usageMatches userId today) with
  | none =>
    have hfe : tbl.filter (usageMatches userId today) = [] := by
      rw [find?_eq_head?_filter] at hf
      exact List.head?_eq_none_iff.mp hf
    have hinc : incrementUsage tbl userId today freshId =
        tbl ++ [⟨freshId, userId, today, 1⟩] := by
      simp only [incrementUsage, hf]
    refine ⟨?_, fun _ => hinc, ?_⟩
    · rw [hinc]
      unfold getUserDailyUsage
      rw [List.filter_append, hfe]
      simp [usageMatches]
    · intro userId' date' hne
      rw [hinc]
      have hrow : usageMatches userId' date'
          (⟨freshId, userId, today, 1⟩ : UsageLog) = false := by
        simp only [usageMatches]
        by_cases hu : userId = userId'
        · by_cases hd : today = date'
          · exact absurd ⟨hu.symm, hd.symm⟩ hne
          · simp [hd]
        · simp [hu]
      rw [List.filter_append]
      simp [hrow]
  | some e =>
    have hfl : tbl.filter (usageMatches userId today) = [e] := by
      rw [find?_eq_head?_filter] at hf
      cases hl : tbl.filter (usageMatches userId today) with
      | nil =>
        rw [hl] at hf
        simp at hf
      | cons a tail =>
        rw [hl] at hf h1
        simp only [List.head?_cons, Option.some.injEq] at hf
        cases tail with
        | nil => rw [hf]
        | cons b tail' => simp at h1
    have hemem : e ∈ tbl := by
      have hm : e ∈ tbl.filter (usageMatches userId today) := by
        rw [hfl]
        exact List.mem_singleton_self e
      exact List.mem_of_mem_filter hm
    have hematch : usageMatches userId today e = true := by
      have hm : e ∈ tbl.filter (usageMatches userId today) := by
        rw [hfl]
        exact List.mem_singleton_self e
      exact List.of_mem_filter hm
    have hinc : incrementUsage tbl userId today freshId =
        tbl.map (bumpRow e) := by
      simp only [incrementUsage, hf]
    have hcomm : ∀ (p q : Str),
        (tbl.map (bumpRow e)).filter (usageMatches p q) =
          (tbl.filter (usageMatches p q)).map (bumpRow e) := by
      intro p q
      rw [List.filter_map (bumpRow e) tbl]
      refine congrArg (List.map (bumpRow e)) ?_
      exact List.filter_congr (fun r _ => usageMatches_bumpRow e p q r)
    refine ⟨?_, ?_, ?_⟩
    · rw [hinc]
      unfold getUserDailyUsage
      rw [hcomm, hfl]
      show ([bumpRow e e].map (·.analysisCount)).sum =
        ([e].map (·.analysisCount)).sum + 1
      unfold bumpRow
      rw [if_pos (by simp)]
      simp
    · intro habs
      rw [habs] at hfl
      cases hfl
    · intro userId' date' hne
      rw [hinc, hcomm]
      have hfix : ∀ r ∈ tbl.filter (usageMatches userId' date'),
          bumpRow e r = r := by
        intro r hr
        have hrt : r ∈ tbl := List.mem_of_mem_filter hr
        have hrm : usageMatches userId' date' r = true := List.of_mem_filter hr
        unfold bumpRow
        rw [if_neg]
        intro hid
        have : r = e := hids r hrt e hemem (by simpa using hid)
        subst this
        simp only [usageMatches, Bool.and_eq_true, beq_iff_eq] at hrm hematch
        exact hne ⟨hrm.1.symm.trans hematch.1, hrm.2.symm.trans hematch.2⟩
      rw [List.map_congr_left hfix, List.map_id']

/-- C6 witness: incrementing twice from the empty table inserts a row
and then bumps it, giving daily usages 1 and 2. -/
theorem C6_witness :
    getUserDailyUsage
        (incrementUsage [] "u".toList "2025-10-11".toList "id-1".toList)
        "u".toList "2025-10-11".toList =
      getUserDailyUsage ([] : List UsageLog) "u".toList "2025-10-11".toList
        + 1 :=
  (C6_increment_usage [] "u".toList "2025-10-11".toList "id-1".toList
    (by simp) (by simp)).1

/-- Digit characters of values below ten are decimal digits. -/
lemma digitChar_isDigit {n : Nat} (h : n < 10) :
    (Nat.digitChar n).isDigit = true := by
  interval_cases n <;> rfl

/-- Value of a digit character of a value below ten. -/
lemma digitChar_val {n : Nat} (h : n < 10) :
    (Nat.digitChar n).toNat - '0'.toNat = n := by
  interval_cases n <;> rfl

/-- A digit differs from any non-digit character. -/
lemma isDigit_ne {c x : Char} (h : c.isDigit = true)
    (hx : x.isDigit = false) : c ≠ x := by
  intro he
  subst he
  rw [h] at hx
  cases hx

/-- `natToStrAux` is independent of the fuel once it covers `n`. -/
lemma natToStrAux_eq (n : Nat) : ∀ f1 f2, n < f1 → n < f2 →
    natToStrAux f1 n = natToStrAux f2 n := by
  induction n using Nat.strong_induction_on with
  | _ n ih =>
    intro f1 f2 h1 h2
    obtain ⟨g1, rfl⟩ : ∃ g, f1 = g + 1 := ⟨f1 - 1, by omega⟩
    obtain ⟨g2, rfl⟩ : ∃ g, f2 = g + 1 := ⟨f2 - 1, by omega⟩
    unfold natToStrAux
    by_cases hn : n < 10
    · rw [if_pos hn, if_pos hn]
    · rw [if_neg hn, if_neg hn]
      have hdiv : n / 10 < n := Nat.div_lt_self (by omega) (by omega)
      rw [ih (n / 10) hdiv g1 g2 (by omega) (by omega)]

/-- One-digit unfolding of `natToStr`. -/
lemma natToStr_small {n : Nat} (h : n < 10) :
    natToStr n = [Nat.digitChar n] := by
  unfold natToStr natToStrAux
  rw [if_pos h]

/-- Recursive unfolding of `natToStr`. -/
lemma natToStr_step {n : Nat} (h : 10 ≤ n) :
    natToStr n = natToStr (n / 10) ++ [Nat.digitChar (n % 10)] := by
  show natToStrAux (n + 1) n = _
  unfold natToStrAux
  rw [if_neg (by omega)]
  have hdiv : n / 10 < n := Nat.div_lt_self (by omega) (by omega)
  rw [natToStrAux_eq (n / 10) n (n / 10 + 1) (by omega) (by omega)]
  rfl

/-- Every character of `natToStr n` is a decimal digit. -/
lemma natToStr_all_digits (n : Nat) : ∀ c ∈ natToStr n, c.isDigit = true := by
  induction n using Nat.strong_induction_on with
  | _ n ih =>
    by_cases hn : n < 10
    · rw [natToStr_small hn]
      intro c hc
      rw [List.mem_singleton] at hc
      subst hc
      exact digitChar_isDigit hn
    · rw [natToStr_step (by omega)]
      intro c hc
      rcases List.mem_append.mp hc with hc | hc
      · exact ih (n / 10) (Nat.div_lt_self (by omega) (by omega)) c hc
      · rw [List.mem_singleton] at hc
        subst hc
        exact digitChar_isDigit (Nat.mod_lt n (by omega))

/-- `natToStr` is never empty. -/
lemma natToStr_ne_nil (n : Nat) : natToStr n ≠ [] := by
  by_cases hn : n < 10
  · rw [natToStr_small hn]
    simp
  · rw [natToStr_step (by omega)]
    simp

/-- Appending a final digit multiplies the value by ten. -/
lemma digitsVal_append (s : Str) (c : Char) :
    digitsVal (s ++ [c]) = digitsVal s * 10 + (c.toNat - '0'.toNat) := by
  unfold digitsVal
  rw [List.foldl_append]
  rfl

/-- `digitsVal` inverts `natToStr`. -/
lemma digitsVal_natToStr (n : Nat) : digitsVal (natToStr n) = n := by
  induction n using Nat.strong_induction_on with
  | _ n ih =>
    by_cases hn : n < 10
    · rw [natToStr_small hn]
      show 0 * 10 + ((Nat.digitChar n).toNat - '0'.toNat) = n
      rw [digitChar_val hn]
      omega
    · rw [natToStr_step (by omega), digitsVal_append,
        ih (n / 10) (Nat.div_lt_self (by omega) (by omega)),
        digitChar_val (Nat.mod_lt n (by omega))]
      omega

/-- Leading zeros do not change a digit string's value. -/
lemma digitsVal_replicate_zero (k : Nat) (s : Str) :
    digitsVal (List.replicate k '0' ++ s) = digitsVal s := by
  induction k with
  | zero => rfl
  | succ j ih =>
    rw [List.replicate_succ, List.cons_append]
    show digitsVal (List.replicate j '0' ++ s) = digitsVal s
    exact ih

/-- A digit never `==`-matches a non-digit character. -/
lemma isDigit_beq_false {c x : Char} (h : c.isDigit = true)
    (hx : x.isDigit = false) : (c == x) = false :=
  beq_eq_false_iff_ne.mpr (isDigit_ne h hx)

/-- A decimal digit is not JS whitespace. -/
lemma isDigit_not_jsSpace {c : Char} (h : c.isDigit = true) :
    isJsSpace c = false := by
  have hval : c.val.toNat ≤ 57 := by
    simp only [Char.isDigit, Bool.and_eq_true, decide_eq_true_eq] at h
    exact h.2
  have hnle : ¬('\u2000' ≤ c) := by
    rw [Char.le_def]
    intro hle
    have hle2 : (8192 : Nat) ≤ c.val.toNat := hle
    omega
  unfold isJsSpace
  simp only [Bool.or_eq_false_iff]
  repeat' constructor
  all_goals first
    | exact isDigit_beq_false h (by decide)
    | rw [decide_eq_false hnle, Bool.false_and]

/-- Digit strings survive a leading JS-whitespace trim. -/
lemma dropWhile_jsSpace_digits (s : Str)
    (hd : ∀ c ∈ s, c.isDigit = true) : s.dropWhile isJsSpace = s := by
  cases s with
  | nil => rfl
  | cons c r =>
    have hc := isDigit_not_jsSpace (hd c (List.mem_cons_self c r))
    rw [List.dropWhile_cons, hc]
    simp

/-- Digit strings survive the full JS trim. -/
lemma trimJs_digits (s : Str) (hd : ∀ c ∈ s, c.isDigit = true) :
    ((s.dropWhile isJsSpace).reverse.dropWhile isJsSpace).reverse = s := by
  rw [dropWhile_jsSpace_digits s hd,
    dropWhile_jsSpace_digits s.reverse
      (fun c hc => hd c (List.mem_reverse.mp hc)),
    List.reverse_reverse]

/-- `ratOfParts` on bare integer digits is the natural-number cast. -/
lemma ratOfParts_nat (v : Nat) : ratOfParts false v [] 0 = ((v : Nat) : Rat) := by
  unfold ratOfParts qAdd qMul
  simp [digitsVal, Rat.mkRat_one]

/-- On an all-digit string the sign matcher goes straight to the
decimal grammar. -/
lemma parseJsSignedDecimal_digits (s : Str)
    (hd : ∀ c ∈ s, c.isDigit = true) :
    parseJsSignedDecimal s = parseJsDecimalCore s := by
  unfold parseJsSignedDecimal
  split
  · rename_i r
    have := hd '-' (List.mem_cons_self _ _)
    exact absurd this (by decide)
  · rename_i r
    have := hd '+' (List.mem_cons_self _ _)
    exact absurd this (by decide)
  · rfl

/-- The decimal grammar on a nonempty all-digit string yields its
value. -/
lemma parseJsDecimalCore_digits (s : Str) (hne : s ≠ [])
    (hd : ∀ c ∈ s, c.isDigit = true) :
    parseJsDecimalCore s = some ((digitsVal s : Nat) : Rat) := by
  unfold parseJsDecimalCore
  rw [List.takeWhile_eq_self_iff.mpr hd, List.dropWhile_eq_nil_iff.mpr hd]
  show (if s.isEmpty = true then none
    else parseJsDecimalCore.jsDecimalExp s [] []) = _
  rw [List.isEmpty_eq_false.mpr hne]
  show parseJsDecimalCore.jsDecimalExp s [] [] = _
  unfold parseJsDecimalCore.jsDecimalExp
  rw [ratOfParts_nat]

/-- JS `Number(..)` of a nonempty all-digit string is its decimal
value. -/
lemma numOfString_digits (s : Str) (hne : s ≠ [])
    (hd : ∀ c ∈ s, c.isDigit = true) :
    numOfString s = some ((digitsVal s : Nat) : Rat) := by
  unfold numOfString
  rw [trimJs_digits s hd]
  unfold numOfStringTrimmed
  split
  · exact absurd rfl hne
  · rename_i x r
    have hx : x.isDigit = true := hd x (by simp)
    rw [if_neg, if_neg, if_neg]
    · rw [parseJsSignedDecimal_digits ('0' :: x :: r) hd]
      exact parseJsDecimalCore_digits ('0' :: x :: r) hne hd
    · simp [isDigit_beq_false hx (by decide : ('b' : Char).isDigit = false),
        isDigit_beq_false hx (by decide : ('B' : Char).isDigit = false)]
    · simp [isDigit_beq_false hx (by decide : ('o' : Char).isDigit = false),
        isDigit_beq_false hx (by decide : ('O' : Char).isDigit = false)]
    · simp [isDigit_beq_false hx (by decide : ('x' : Char).isDigit = false),
        isDigit_beq_false hx (by decide : ('X' : Char).isDigit = false)]
  · rename_i t hne1 hne2
    rw [parseJsSignedDecimal_digits s hd]
    exact parseJsDecimalCore_digits s hne hd

/-- `split("-")` cuts exactly at a dash that neither side contains. -/
lemma splitDash_append (xs ys : Str) (hxs : '-' ∉ xs) :
    splitDash (xs ++ '-' :: ys) = xs :: splitDash ys := by
  induction xs with
  | nil => simp [splitDash]
  | cons c t ih =>
    have hc : (c == '-') = false :=
      beq_eq_false_iff_ne.mpr (fun he => hxs (he ▸ List.mem_cons_self c t))
    rw [List.cons_append]
    simp only [splitDash, hc, Bool.false_eq_true, if_false]
    rw [ih (fun hm => hxs (List.mem_cons_of_mem c hm))]

/-- `split("-")` of a dash-free string is that string alone. -/
lemma splitDash_single (ys : Str) (hys : '-' ∉ ys) :
    splitDash ys = [ys] := by
  induction ys with
  | nil => rfl
  | cons c t ih =>
    have hc : (c == '-') = false :=
      beq_eq_false_iff_ne.mpr (fun he => hys (he ▸ List.mem_cons_self c t))
    simp only [splitDash, hc, Bool.false_eq_true, if_false]
    rw [ih (fun hm => hys (List.mem_cons_of_mem c hm))]

/-- Every character of a padded two-digit field is a digit. -/
lemma pad2_all_digits (n : Nat) : ∀ c ∈ pad2 n, c.isDigit = true := by
  intro c hc
  unfold pad2 padStart at hc
  rcases List.mem_append.mp hc with hc | hc
  · rw [List.eq_of_mem_replicate hc]
    rfl
  · exact natToStr_all_digits n c hc

/-- A padded two-digit field is nonempty. -/
lemma pad2_ne_nil (n : Nat) : pad2 n ≠ [] := by
  unfold pad2 padStart
  intro h
  exact natToStr_ne_nil n (List.append_eq_nil.mp h).2

/-- Value of a padded two-digit field. -/
lemma digitsVal_pad2 (n : Nat) : digitsVal (pad2 n) = n := by
  unfold pad2 padStart
  rw [digitsVal_replicate_zero, digitsVal_natToStr]

/-- No dash occurs in a digit string. -/
lemma not_dash_of_digits {s : Str} (hd : ∀ c ∈ s, c.isDigit = true) :
    '-' ∉ s :=
  fun hm => absurd (hd '-' hm) (by decide)

/-- `qAdd` realises `+ 1` on natural casts. -/
lemma qAdd_natCast_one (n : Nat) :
    qAdd ((n : Nat) : Rat) 1 = ((n + 1 : Nat) : Rat) := by
  show mkRat ((n : Int) * 1 + 1 * 1) (1 * 1) = _
  rw [Rat.mkRat_one]
  push_cast
  ring

/-- The core printer on a bare integer (exponent 0) gives its digits. -/
lemma ratToJsStrCore_nat (n : Nat) : ratToJsStrCore false n 0 = natToStr n := by
  have hlen : 1 ≤ (natToStr n).length :=
    List.length_pos.mpr (natToStr_ne_nil n)
  unfold ratToJsStrCore
  have hpad : padStart (0 + 1) '0' (natToStr n) = natToStr n := by
    unfold padStart
    have h2 : 0 + 1 - (natToStr n).length = 0 := by omega
    rw [h2]
    rfl
  rw [hpad]
  simp

/-- Printing a natural-cast rational gives its decimal digits. -/
lemma ratToJsStr_natCast (n : Nat) :
    ratToJsStr ((n : Nat) : Rat) = natToStr n := by
  unfold ratToJsStr
  rw [show (((n : Nat) : Rat)).den = 1 from rfl,
    show (((n : Nat) : Rat)).num = (n : Int) from rfl,
    show decExpOf 1 = some 0 from rfl]
  show ratToJsStrCore (decide ((n : Int) < 0)) ((n : Int).natAbs * 10 ^ 0 / 1) 0 =
    natToStr n
  rw [decide_eq_false (by simp : ¬(n : Int) < 0)]
  have hunits : (n : Int).natAbs * 10 ^ 0 / 1 = n := by simp
  rw [hunits, ratToJsStrCore_nat]

/-- C7: for a month string whose first seven characters are `YYYY-MM`,
`getUserMonthlyUsage` sums `analysisCount` over exactly the user's rows
whose date lies in the half-open window from the first day of that month
(inclusive) to the first day of the following month (exclusive), where
the month after December of year `y` is January of year `y+1`; and it
returns 0 when the user has no rows in that window. -/
theorem C7_monthly_usage_window (tbl : List UsageLog) (userId month : Str)
    (y m : Nat) (h7 : month.take 7 = natToStr y ++ '-' :: pad2 m)
    (hm1 : 1 ≤ m) (hm12 : m ≤ 12) :
    getUserMonthlyUsage tbl userId month =
      ((tbl.filter (fun r => r.userId == userId &&
          strLe (fmtDate y m 1) r.date &&
          strLt r.date (if m = 12 then fmtDate (y + 1) 1 1
            else fmtDate y (m + 1) 1))).map (·.analysisCount)).sum ∧
    ((tbl.filter (fun r => r.userId == userId &&
        strLe (fmtDate y m 1) r.date &&
        strLt r.date (if m = 12 then fmtDate (y + 1) 1 1
          else fmtDate y (m + 1) 1))) = [] →
      getUserMonthlyUsage tbl userId month = 0) := by
  have hdy := natToStr_all_digits y
  have hdm := pad2_all_digits m
  have hsplit : splitDash (month.take 7) = [natToStr y, pad2 m] := by
    rw [h7, splitDash_append _ _ (not_dash_of_digits hdy),
      splitDash_single _ (not_dash_of_digits hdm)]
  have hyear : numOfString (natToStr y) = some ((y : Nat) : Rat) := by
    rw [numOfString_digits _ (natToStr_ne_nil y) hdy, digitsVal_natToStr]
  have hmonthv : numOfString (pad2 m) = some ((m : Nat) : Rat) := by
    rw [numOfString_digits _ (pad2_ne_nil m) hdm, digitsVal_pad2]
  have hm01 : ("-01".toList : Str) = '-' :: padStart 2 '0' (natToStr 1) := rfl
  have hc1 : ((1 : Nat) : Rat) = (1 : Rat) := Nat.cast_one
  have hunf : getUserMonthlyUsage tbl userId month =
      ((tbl.filter (fun r =>
          r.userId == userId &&
          strLe (month.take 7 ++ "-01".toList) r.date &&
          strLt r.date
            (jsNumToStr
                (if numOfString ((splitDash (month.take 7)).getD 1 []) = some 12
                 then jsAddNum (numOfString ((splitDash (month.take 7)).getD 0 [])) 1
                 else numOfString ((splitDash (month.take 7)).getD 0 [])) ++ ['-'] ++
              padStart 2 '0'
                (jsNumToStr
                  (if numOfString ((splitDash (month.take 7)).getD 1 []) = some 12
                   then some (1 : Rat)
                   else jsAddNum (numOfString ((splitDash (month.take 7)).getD 1 [])) 1)) ++
              "-01".toList))).map (·.analysisCount)).sum := rfl
  rw [hsplit] at hunf
  simp only [List.getD_cons_zero, List.getD_cons_succ] at hunf
  rw [hyear, hmonthv] at hunf
  have hmain : getUserMonthlyUsage tbl userId month =
      ((tbl.filter (fun r => r.userId == userId &&
          strLe (fmtDate y m 1) r.date &&
          strLt r.date (if m = 12 then fmtDate (y + 1) 1 1
            else fmtDate y (m + 1) 1))).map (·.analysisCount)).sum := by
    by_cases hm : m = 12
    · subst hm
      have hcond : some ((12 : Nat) : Rat) = some (12 : Rat) :=
        congrArg some (by norm_num)
      simp only [if_pos hcond, jsAddNum, Option.map_some', qAdd_natCast_one] at hunf
      rw [← hc1] at hunf
      simp only [jsNumToStr, ratToJsStr_natCast] at hunf
      rw [if_pos (rfl : (12 : Nat) = 12), hunf, h7]
      simp only [fmtDate, pad2, hm01, List.append_assoc, List.cons_append,
        List.singleton_append, List.nil_append]
    · have hcond : ¬(some ((m : Nat) : Rat) = some (12 : Rat)) := by
        intro h
        apply hm
        have h2 := Option.some.inj h
        exact_mod_cast h2
      simp only [if_neg hcond, jsAddNum, Option.map_some', qAdd_natCast_one] at hunf
      simp only [jsNumToStr, ratToJsStr_natCast] at hunf
      rw [if_neg hm, hunf, h7]
      simp only [fmtDate, pad2, hm01, List.append_assoc, List.cons_append,
        List.singleton_append, List.nil_append]
  exact ⟨hmain, fun hnil => by rw [hmain, hnil]; rfl⟩

/-- C7 witness: for the month "2025-12" the window runs from 2025-12-01
inclusive to 2026-01-01 exclusive, so a row dated 2025-12-05 counts and
a row dated 2026-01-01 does not. -/
theorem C7_witness :
    ("2025-12".toList : Str).take 7 = natToStr 2025 ++ '-' :: pad2 12 ∧
    (getUserMonthlyUsage
        [⟨"r1".toList, "u".toList, "2025-12-05".toList, 2⟩,
         ⟨"r2".toList, "u".toList, "2026-01-01".toList, 5⟩]
        "u".toList "2025-12".toList =
      ((([⟨"r1".toList, "u".toList, "2025-12-05".toList, 2⟩,
          ⟨"r2".toList, "u".toList, "2026-01-01".toList, 5⟩] :
            List UsageLog).filter
          (fun r => r.userId == "u".toList &&
            strLe (fmtDate 2025 12 1) r.date &&
            strLt r.date (if 12 = 12 then fmtDate (2025 + 1) 1 1
              else fmtDate 2025 (12 + 1) 1))).map (·.analysisCount)).sum ∧
      ((([⟨"r1".toList, "u".toList, "2025-12-05".toList, 2⟩,
          ⟨"r2".toList, "u".toList, "2026-01-01".toList, 5⟩] :
            List UsageLog).filter
          (fun r => r.userId == "u".toList &&
            strLe (fmtDate 2025 12 1) r.date &&
            strLt r.date (if 12 = 12 then fmtDate (2025 + 1) 1 1
              else fmtDate 2025 (12 + 1) 1))) = [] →
        getUserMonthlyUsage
            [⟨"r1".toList, "u".toList, "2025-12-05".toList, 2⟩,
             ⟨"r2".toList, "u".toList, "2026-01-01".toList, 5⟩]
            "u".toList "2025-12".toList = 0)) ∧
    getUserMonthlyUsage
        [⟨"r1".toList, "u".toList, "2025-12-05".toList, 2⟩,
         ⟨"r2".toList, "u".toList, "2026-01-01".toList, 5⟩]
        "u".toList "2025-12".toList = 2 :=
  ⟨by decide,
   C7_monthly_usage_window
     [⟨"r1".toList, "u".toList, "2025-12-05".toList, 2⟩,
      ⟨"r2".toList, "u".toList, "2026-01-01".toList, 5⟩]
     "u".toList "2025-12".toList 2025 12 (by decide) (by decide) (by decide),
   by decide⟩

end RedFlag
